import Mathlib

/-!
Verification of the SteelWorks import/normalize/aggregate pipeline.

This file is a shallow embedding, in Lean 4, of the logic of the
`steelworks` Python package:

* `lot_utils.normalize_lot_id` — identifier normalization;
* `repository.get_or_create_lot` / `get_or_create_line` /
  `get_or_create_defect` — get-or-create reference resolution;
* `repository.summary_defects_by_line`, `repository.trending_defects`,
  `repository.shipping_status_for_lot` — the three aggregators;
* `services.import_production_data`, `services.import_inspection_data`,
  `services.import_shipping_data` — the row importers;
* `database.get_session` — the commit-on-success / rollback-on-failure
  transaction wrapper.

The relational store is modelled as an explicit `DB` value holding the
dimension tables (Lot, ProductionLine, Defect) and the three fact tables;
SQLAlchemy sessions become explicit state passing, SQL queries become list
pipelines with the same filter/join/group/order structure, and Python's
`date.isocalendar` is transcribed from CPython's ordinal-based algorithm.
The ORM model declarations (`models.Lot` etc.) and the SQL schema are not
present in the repository source (its `models.py` is a stale scaffold of
dataclasses that the rest of the code does not use), so entity and fact
record shapes are modelled from the specification's data model (§3) and
from how `repository.py`/`services.py` construct and read them.
-/

/-! ## Characters and identifier normalization (`lot_utils.py`) -/

/-- ASCII letter-or-digit test: the character class `[A-Za-z0-9]` of the
regex in `normalize_lot_id` (`re.sub(r"[^A-Za-z0-9]", "", raw)` keeps
exactly these characters). -/
def isAsciiAlnum (c : Char) : Bool :=
  (48 ≤ c.toNat && c.toNat ≤ 57) || (65 ≤ c.toNat && c.toNat ≤ 90) ||
    (97 ≤ c.toNat && c.toNat ≤ 122)

/-- ASCII uppercasing of one character.  Python's `str.upper` folds far
more of Unicode, but in this development the function is only ever applied
to output of the `[A-Za-z0-9]` filter or compared against strings that
went through the same fold on both sides, where the ASCII fold agrees with
Python (and with SQLite's ASCII-only `upper()` used by the SQL filter). -/
def asciiUpper (c : Char) : Char :=
  if 97 ≤ c.toNat && c.toNat ≤ 122 then Char.ofNat (c.toNat - 32) else c

/-- Uppercasing of a string, character by character (`str.upper`, ASCII
fragment). -/
def pyUpper (s : String) : String :=
  String.mk (s.data.map asciiUpper)

/-- ASCII whitespace, as stripped by `str.strip()` (Python also strips
some Unicode whitespace; the line/defect keys in this development are
ASCII). -/
def isPySpace (c : Char) : Bool :=
  c == ' ' || c == '\t' || c == '\n' || c == '\r' || c.toNat == 11 || c.toNat == 12

/-- `str.strip()`: drop leading and trailing whitespace. -/
def pyStrip (s : String) : String :=
  String.mk (((s.data.dropWhile isPySpace).reverse.dropWhile isPySpace).reverse)

/-- Code-point lexicographic strict comparison of character lists: the
order Python's `<` places on strings, used by `sorted` on the
`(week label, defect code)` keys. -/
def charListLtB : List Char → List Char → Bool
  | [], [] => false
  | [], _ :: _ => true
  | _ :: _, [] => false
  | a :: as, b :: bs => a.toNat < b.toNat || (a.toNat == b.toNat && charListLtB as bs)

/-- Python string `<` (code-point lexicographic). -/
def strLtB (a b : String) : Bool := charListLtB a.data b.data

/-- Python string `<=` (code-point lexicographic). -/
def strLeB (a b : String) : Bool := !(charListLtB b.data a.data)

/-- `lot_utils.normalize_lot_id`: `None` yields `""`; otherwise remove
every character outside `[A-Za-z0-9]` and uppercase the remainder. -/
def normalize_lot_id (raw : Option String) : String :=
  match raw with
  | Option.none => ""
  | some s => String.mk ((s.data.filter isAsciiAlnum).map asciiUpper)

/-! ## Dates and `date.isocalendar` (CPython `datetime` algorithm) -/

/-- A Gregorian calendar date, as carried by `datetime.date` values in
the rows and columns of the pipeline. -/
structure PyDate where
  year : Nat
  month : Nat
  day : Nat
deriving DecidableEq, Repr

/-- Date comparison (`<=` on `datetime.date` / SQL `DATE` columns):
lexicographic on (year, month, day). -/
def dateLeB (a b : PyDate) : Bool :=
  a.year < b.year ||
    (a.year == b.year && (a.month < b.month || (a.month == b.month && a.day ≤ b.day)))

/-- Strict date comparison, lexicographic on (year, month, day). -/
def dateLtB (a b : PyDate) : Bool :=
  a.year < b.year ||
    (a.year == b.year && (a.month < b.month || (a.month == b.month && a.day < b.day)))

/-- Length of a month (CPython `_days_in_month`). -/
def daysInMonth (y : Int) (m : Nat) : Nat :=
  if m = 2 then (if y % 4 = 0 && (y % 100 != 0 || y % 400 = 0) then 29 else 28)
  else if m = 4 || m = 6 || m = 9 || m = 11 then 30 else 31

/-- Days in year `y` strictly before month `m` (CPython `_days_before_month`). -/
def daysBeforeMonth (y : Int) (m : Nat) : Nat :=
  ((List.range (m - 1)).map (fun i => daysInMonth y (i + 1))).sum

/-- Days before January 1st of year `y` (CPython `_days_before_year`);
Python's floor division transcribed with `Int.fdiv`. -/
def daysBeforeYear (y : Int) : Int :=
  let n := y - 1
  365 * n + Int.fdiv n 4 - Int.fdiv n 100 + Int.fdiv n 400

/-- Proleptic Gregorian ordinal of a date (CPython `_ymd2ord`). -/
def ymd2ord (y : Int) (m d : Nat) : Int :=
  daysBeforeYear y + daysBeforeMonth y m + d

/-- Ordinal of the Monday starting ISO week 1 of year `y`
(CPython `_isoweek1monday`). -/
def isoweek1monday (y : Int) : Int :=
  let firstday := ymd2ord y 1 1
  let firstweekday := (firstday + 6) % 7
  let week1monday := firstday - firstweekday
  if firstweekday > 3 then week1monday + 7 else week1monday

/-- The (ISO year, ISO week) part of `date.isocalendar()` (CPython
`date.isocalendar`; the weekday component is discarded by
`trending_defects`). -/
def isocalendarYW (dt : PyDate) : Int × Int :=
  let y : Int := dt.year
  let today := ymd2ord y dt.month dt.day
  let week0 := Int.fdiv (today - isoweek1monday y) 7
  if week0 < 0 then
    (y - 1, Int.fdiv (today - isoweek1monday (y - 1)) 7 + 1)
  else if week0 ≥ 52 && today ≥ isoweek1monday (y + 1) then
    (y + 1, 1)
  else (y, week0 + 1)

/-- The week label built by `trending_defects`:
`f"{year}-W{week:02}"` for the ISO year/week of the inspection date. -/
def isoWeekLabel (dt : PyDate) : String :=
  let yw := isocalendarYW dt
  toString yw.1 ++ "-W" ++ (if yw.2 < 10 then "0" ++ toString yw.2 else toString yw.2)

/-! ## Spreadsheet row values (`pandas.DataFrame.to_dict` records) -/

/-- A cell value of an imported row: Python `None`, a string, an integer,
a boolean, or a date. -/
inductive Value where
  | none
  | str (s : String)
  | int (n : Int)
  | bool (b : Bool)
  | date (d : PyDate)
deriving DecidableEq, Repr

/-- Python truthiness of a cell value (`if not row.get(...)` checks). -/
def Value.truthy : Value → Bool
  | Value.none => false
  | Value.str s => s != ""
  | Value.int n => n != 0
  | Value.bool b => b
  | Value.date _ => true

/-- Extract a string cell.  A non-string, non-null value in a string
position would raise a `TypeError` upstream in Python (`re.sub`, `strip`);
rows built by the repository's loaders (`pandas` with `dtype=str`) carry
strings here. -/
def Value.asStrOpt : Value → Option String
  | Value.str s => some s
  | _ => Option.none

/-- Extract a date cell for a date-typed column.  Modelled from the spec:
the SQL schema (absent from the source tree) types these columns as
dates; a truthy non-date value is a storage-layer type failure outside
this embedding. -/
def Value.asDateOpt : Value → Option PyDate
  | Value.date d => some d
  | _ => Option.none

/-- Extract an integer cell for a nullable integer column (`None` maps to
SQL `NULL`).  Modelled from the spec: the SQL schema is absent from the
source tree; a non-integer value here is a storage-layer type failure
outside this embedding. -/
def Value.asIntOpt : Value → Option Int
  | Value.int n => some n
  | _ => Option.none

/-- The `> 0` test of `import_inspection_data` on a quantity cell.  Python
compares only numbers; a string here would raise upstream, and the guard
is only reached for truthy values. -/
def Value.gtZeroB : Value → Bool
  | Value.int n => 0 < n
  | _ => false

/-- One spreadsheet row: an ordered field/value mapping
(`DataFrame.to_dict(orient="records")` dictionaries). -/
abbrev Row := List (String × Value)

/-- `row.get(k)`: the value at key `k`, or `None` when the key is absent. -/
def rowGet (r : Row) (k : String) : Value :=
  match r.find? (fun kv => kv.1 == k) with
  | some kv => kv.2
  | Option.none => Value.none

/-- `row.get(k, d)`: the value at key `k`, or `d` when the key is absent
(a present key mapped to `None` still yields `None`). -/
def rowGetD (r : Row) (k : String) (d : Value) : Value :=
  match r.find? (fun kv => kv.1 == k) with
  | some kv => kv.2
  | Option.none => d

/-! ## Entities and fact records (spec §3; ORM declarations absent from src) -/

/-- Modelled from the spec: dimension entity `Lot` — unique canonical lot
identifier, plus the surrogate primary key populated by `session.flush`. -/
structure Lot where
  id : Nat
  lot : String
deriving DecidableEq, Repr

/-- Modelled from the spec: dimension entity `ProductionLine` — canonical
(trimmed, uppercased) line name. -/
structure ProductionLine where
  id : Nat
  line : String
deriving DecidableEq, Repr

/-- Modelled from the spec: dimension entity `Defect` — canonical defect
code. -/
structure Defect where
  id : Nat
  defect_code : String
deriving DecidableEq, Repr

/-- Production fact row, with the fields `import_production_data`
populates.  Only the dimension references are typed; the remaining
columns pass the cell values through untouched. -/
structure ProductionRecord where
  lot_id : Nat
  production_line_id : Nat
  date : Value
  shift : Value
  part_number : Value
  units_planned : Value
  units_actual : Value
  downtime_min : Value
  line_issue : Value
  primary_issue : Value
  supervisor_notes : Value
deriving DecidableEq, Repr

/-- Inspection fact row, with the fields `import_inspection_data`
populates.  `inspection_date` and `qty_defects` are typed (nullable date
and integer columns) because the aggregators read them; `defect_id` is
the optional defect reference. -/
structure InspectionRecord where
  lot_id : Nat
  production_line_id : Nat
  inspection_date : Option PyDate
  inspection_time : Value
  inspector : Value
  part_number : Value
  defect_id : Option Nat
  defect_description : Value
  severity : Value
  qty_checked : Value
  qty_defects : Option Int
  disposition : Value
  notes : Value
deriving DecidableEq, Repr

/-- Shipping fact row, with the fields `import_shipping_data` populates.
`ship_date` is typed (a non-null date column: the importer requires it);
`ship_status` keeps the raw cell value, compared against the literal
string `"Shipped"` by the lookup. -/
structure ShippingRecord where
  lot_id : Nat
  ship_date : PyDate
  sales_order_no : Value
  customer : Value
  destination_state : Value
  carrier : Value
  bol_no : Value
  tracking_pro : Value
  qty_shipped : Value
  ship_status : Value
  hold_reason : Value
  shipping_notes : Value
deriving DecidableEq, Repr

/-- The relational store: three dimension tables, three fact tables, and
the per-table autoincrement counters that `session.flush` draws surrogate
keys from. -/
structure DB where
  lots : List Lot
  lines : List ProductionLine
  defects : List Defect
  productionRecords : List ProductionRecord
  inspectionRecords : List InspectionRecord
  shippingRecords : List ShippingRecord
  nextLotId : Nat
  nextLineId : Nat
  nextDefectId : Nat
deriving DecidableEq, Repr

/-- A freshly initialized store (`init_db` on an empty database; SQL
autoincrement keys start at 1). -/
def emptyDB : DB :=
  { lots := [], lines := [], defects := [],
    productionRecords := [], inspectionRecords := [], shippingRecords := [],
    nextLotId := 1, nextLineId := 1, nextDefectId := 1 }

/-! ## Reference resolution (`repository.get_or_create_*`) -/

/-- `repository.get_or_create_lot`: normalize, look up by canonical key
(`scalar_one_or_none`, which assumes at most one match), create and flush
on a miss. -/
def get_or_create_lot (db : DB) (lot : Option String) : Lot × DB :=
  let normalized := normalize_lot_id lot
  match db.lots.find? (fun l => l.lot == normalized) with
  | some existing => (existing, db)
  | Option.none =>
    let new : Lot := { id := db.nextLotId, lot := normalized }
    (new, { db with lots := db.lots ++ [new], nextLotId := db.nextLotId + 1 })

/-- The canonical key of `get_or_create_line`: substitute `"UNKNOWN"` for
`None`/empty, then `strip().upper()`. -/
def canonLineKey (line : Option String) : String :=
  let l := match line with
           | Option.none => "UNKNOWN"
           | some s => if s == "" then "UNKNOWN" else s
  pyUpper (pyStrip l)

/-- `repository.get_or_create_line`. -/
def get_or_create_line (db : DB) (line : Option String) : ProductionLine × DB :=
  let canon := canonLineKey line
  match db.lines.find? (fun l => l.line == canon) with
  | some existing => (existing, db)
  | Option.none =>
    let new : ProductionLine := { id := db.nextLineId, line := canon }
    (new, { db with lines := db.lines ++ [new], nextLineId := db.nextLineId + 1 })

/-- The canonical key of `get_or_create_defect` (same defaulting and
folding as for lines). -/
def canonDefectKey (code : Option String) : String :=
  let c := match code with
           | Option.none => "UNKNOWN"
           | some s => if s == "" then "UNKNOWN" else s
  pyUpper (pyStrip c)

/-- `repository.get_or_create_defect`. -/
def get_or_create_defect (db : DB) (code : Option String) : Defect × DB :=
  let canon := canonDefectKey code
  match db.defects.find? (fun d => d.defect_code == canon) with
  | some existing => (existing, db)
  | Option.none =>
    let new : Defect := { id := db.nextDefectId, defect_code := canon }
    (new, { db with defects := db.defects ++ [new], nextDefectId := db.nextDefectId + 1 })

/-! ## Aggregators (`repository.py`) -/

/-- The SQL date-range filter of the aggregate queries: each provided
bound adds a `WHERE` clause, and a comparison against a `NULL` date fails
(so a null-dated row passes only when no bound is given). -/
def inDateRange (start stop : Option PyDate) (d : Option PyDate) : Bool :=
  (match start with
   | some s => match d with
     | some dv => dateLeB s dv
     | Option.none => false
   | Option.none => true) &&
  (match stop with
   | some e => match d with
     | some dv => dateLeB dv e
     | Option.none => false
   | Option.none => true)

/-- The join of `summary_defects_by_line`: ProductionLine joined to
InspectionRecord on the line foreign key, projecting the line name, the
inspection date (for the range filter) and `qty_defects`. -/
def summaryJoinedRows (db : DB) : List (String × Option PyDate × Option Int) :=
  db.lines.flatMap (fun pl =>
    (db.inspectionRecords.filter (fun r => r.production_line_id == pl.id)).map
      (fun r => (pl.line, r.inspection_date, r.qty_defects)))

/-- The joined rows of `summary_defects_by_line` after the optional date
and line filters (`func.upper(line_column) == line.strip().upper()`). -/
def summaryRows (db : DB) (start stop : Option PyDate) (lineFilter : Option String) :
    List (String × Option PyDate × Option Int) :=
  let dated := (summaryJoinedRows db).filter (fun t => inDateRange start stop t.2.1)
  match lineFilter with
  | some lf => dated.filter (fun t => pyUpper t.1 == pyUpper (pyStrip lf))
  | Option.none => dated

/-- `SUM(qty_defects)` for one line group, through `int(r[1] or 0)`:
`NULL` cells are ignored by SQL `SUM` and an all-`NULL` (hence `NULL`)
sum is turned into `0` by `or 0` — together the same as summing with
`NULL` read as `0`. -/
def summaryTotal (rows : List (String × Option PyDate × Option Int)) (ln : String) : Int :=
  ((rows.filter (fun t => t.1 == ln)).map (fun t => t.2.2.getD 0)).sum

/-- The `ORDER BY SUM(qty_defects) DESC` relation; SQL defines no
tiebreak for equal totals. -/
def descByTotal (a b : String × Int) : Prop := b.2 ≤ a.2

instance : DecidableRel descByTotal := fun a b => inferInstanceAs (Decidable (b.2 ≤ a.2))

/-- `repository.summary_defects_by_line`: filter, group by line name,
sum `qty_defects`, order descending by total. -/
def summary_defects_by_line (db : DB) (start stop : Option PyDate)
    (line : Option String) : List (String × Int) :=
  let rows := summaryRows db start stop line
  let keys := (rows.map (fun t => t.1)).dedup
  List.insertionSort descByTotal (keys.map (fun k => (k, summaryTotal rows k)))

/-- The join of `trending_defects`: InspectionRecord inner-joined to
Defect along the defect reference (records with an unset reference drop
out), projecting date, defect code and `qty_defects`. -/
def trendJoinedRows (db : DB) : List (Option PyDate × String × Option Int) :=
  db.inspectionRecords.flatMap (fun r =>
    match r.defect_id with
    | Option.none => []
    | some did =>
      (db.defects.filter (fun d => d.id == did)).map
        (fun d => (r.inspection_date, d.defect_code, r.qty_defects)))

/-- The Python-side aggregation input of `trending_defects`: joined rows
within the date range, rows with a null date skipped (`continue`), each
yielding its `(week label, defect code)` key and `qty or 0`. -/
def trendLabeledRows (db : DB) (start stop : Option PyDate) :
    List ((String × String) × Int) :=
  ((trendJoinedRows db).filter (fun t => inDateRange start stop t.1)).filterMap
    (fun t => match t.1 with
      | Option.none => Option.none
      | some d => some ((isoWeekLabel d, t.2.1), t.2.2.getD 0))

/-- The aggregated total of one `(week label, defect code)` key
(`counts[key] += qty or 0`). -/
def trendTotal (rows : List ((String × String) × Int)) (k : String × String) : Int :=
  ((rows.filter (fun t => t.1 == k)).map (fun t => t.2)).sum

/-- The ascending order of `sorted(counts.items())` as a Boolean test:
lexicographic on the `(week label, defect code)` key, with Python's
code-point string order. -/
def ascKeyB (a b : String × String) : Bool :=
  strLtB a.1 b.1 || (a.1 == b.1 && strLeB a.2 b.2)

/-- The ascending order of `sorted(counts.items())` as a relation. -/
def ascKey (a b : String × String) : Prop := ascKeyB a b = true

instance : DecidableRel ascKey := fun a b =>
  inferInstanceAs (Decidable (ascKeyB a b = true))

/-- `repository.trending_defects`: fetch the joined rows in range,
aggregate per `(ISO week label, defect code)` in insertion order, then
return the totals sorted ascending by key. -/
def trending_defects (db : DB) (start stop : Option PyDate) :
    List (String × String × Int) :=
  let rows := trendLabeledRows db start stop
  let keys := (rows.map (fun t => t.1)).dedup
  (List.insertionSort ascKey keys).map (fun k => (k.1, k.2, trendTotal rows k))

/-- The order of `sorted(counts.items())` carried over to the returned
triples: compare by the `(week label, defect code)` components. -/
def ascTriple (a b : String × String × Int) : Prop :=
  ascKey (a.1, a.2.1) (b.1, b.2.1)

/-- The `ORDER BY ship_date DESC LIMIT 1` pick of
`shipping_status_for_lot`: a record with the maximal ship date (ties
broken arbitrarily by SQL; this model keeps the earliest such record). -/
def latestPick (acc : Option ShippingRecord) (r : ShippingRecord) : Option ShippingRecord :=
  match acc with
  | Option.none => some r
  | some b => if dateLtB b.ship_date r.ship_date then some r else some b

/-- The fold computing the `ORDER BY ship_date DESC LIMIT 1` record. -/
def latestShipping (l : List ShippingRecord) : Option ShippingRecord :=
  l.foldl latestPick Option.none

/-- The Lot lookup by normalized key (`scalar_one_or_none`, at most one
match under the dimension-uniqueness invariant). -/
def lookupLot (db : DB) (q : Option String) : Option Lot :=
  db.lots.find? (fun l => l.lot == normalize_lot_id q)

/-- The shipping records of one lot (`WHERE lot_id == lot.id`). -/
def shipRecords (db : DB) (lotId : Nat) : List ShippingRecord :=
  db.shippingRecords.filter (fun r => r.lot_id == lotId)

/-- `repository.shipping_status_for_lot`: normalize the query, look up
the Lot; `None` on a miss; otherwise the latest shipping record gives
`(status == "Shipped", ship_date)`, and `None` again if the lot has no
shipping records. -/
def shipping_status_for_lot (db : DB) (lotQuery : String) : Option (Bool × PyDate) :=
  match lookupLot db (some lotQuery) with
  | Option.none => Option.none
  | some lot =>
    match latestShipping (shipRecords db lot.id) with
    | some r => some (r.ship_status == Value.str "Shipped", r.ship_date)
    | Option.none => Option.none

/-! ## Importers (`services.py`) -/

/-- The required-field test of `import_production_data`
(`Lot_ID`, `Production_Date`, `Production_Line` all truthy). -/
def requiredProduction (row : Row) : Bool :=
  (rowGet row "Lot_ID").truthy && (rowGet row "Production_Date").truthy &&
    (rowGet row "Production_Line").truthy

/-- The fact record built for one accepted production row. -/
def mkProductionRecord (row : Row) (lot : Lot) (line : ProductionLine) :
    ProductionRecord :=
  { lot_id := lot.id
    production_line_id := line.id
    date := rowGet row "Production_Date"
    shift := rowGetD row "Shift" (Value.str "Unknown")
    part_number := rowGetD row "Part_Number" (Value.str "")
    units_planned := rowGetD row "Units_Planned" (Value.int 0)
    units_actual := rowGetD row "Units_Actual" (Value.int 0)
    downtime_min := rowGetD row "Downtime_Min" (Value.int 0)
    line_issue := rowGetD row "Line_Issue" (Value.bool false)
    primary_issue := rowGet row "Primary_Issue"
    supervisor_notes := rowGet row "Supervisor_Notes" }

/-- One loop iteration of `import_production_data`: skip and count a row
missing a required field, otherwise resolve the dimensions and add the
fact record. -/
def import_production_step (acc : DB × Nat) (row : Row) : DB × Nat :=
  if !(rowGet row "Lot_ID").truthy || !(rowGet row "Production_Date").truthy ||
      !(rowGet row "Production_Line").truthy then
    (acc.1, acc.2 + 1)
  else
    let lotDb := get_or_create_lot acc.1 (rowGet row "Lot_ID").asStrOpt
    let lineDb := get_or_create_line lotDb.2 (rowGet row "Production_Line").asStrOpt
    let r := mkProductionRecord row lotDb.1 lineDb.1
    ({ lineDb.2 with productionRecords := lineDb.2.productionRecords ++ [r] }, acc.2)

/-- `services.import_production_data` on an open session: fold the rows,
returning the updated store and the skipped-row tally it reports. -/
def import_production_data (db : DB) (rows : List Row) : DB × Nat :=
  rows.foldl import_production_step (db, 0)

/-- The required-field test of `import_inspection_data`. -/
def requiredInspection (row : Row) : Bool :=
  (rowGet row "Lot_ID").truthy && (rowGet row "Inspection_Date").truthy &&
    (rowGet row "Production_Line").truthy

/-- The defect-reference resolution of `import_inspection_data`: only
when `row.get("Qty_Defects", 0)` is truthy and `> 0` AND a truthy
`Defect_Code` is given is a Defect resolved; otherwise the reference is
left unset. -/
def resolveInspectionDefect (db : DB) (row : Row) : Option Nat × DB :=
  let q := rowGetD row "Qty_Defects" (Value.int 0)
  if q.truthy && q.gtZeroB then
    let code := rowGet row "Defect_Code"
    if code.truthy then
      let dDb := get_or_create_defect db code.asStrOpt
      (some dDb.1.id, dDb.2)
    else (Option.none, db)
  else (Option.none, db)

/-- The fact record built for one accepted inspection row. -/
def mkInspectionRecord (row : Row) (lot : Lot) (line : ProductionLine)
    (defectId : Option Nat) : InspectionRecord :=
  { lot_id := lot.id
    production_line_id := line.id
    inspection_date := (rowGet row "Inspection_Date").asDateOpt
    inspection_time := rowGet row "Inspection_Time"
    inspector := rowGetD row "Inspector" (Value.str "Unknown")
    part_number := rowGetD row "Part_Number" (Value.str "")
    defect_id := defectId
    defect_description := rowGet row "Defect_Description"
    severity := rowGet row "Severity"
    qty_checked := rowGetD row "Qty_Checked" (Value.int 0)
    qty_defects := (rowGetD row "Qty_Defects" (Value.int 0)).asIntOpt
    disposition := rowGet row "Disposition"
    notes := rowGet row "Notes" }

/-- One loop iteration of `import_inspection_data`. -/
def import_inspection_step (acc : DB × Nat) (row : Row) : DB × Nat :=
  if !(rowGet row "Lot_ID").truthy || !(rowGet row "Inspection_Date").truthy ||
      !(rowGet row "Production_Line").truthy then
    (acc.1, acc.2 + 1)
  else
    let lotDb := get_or_create_lot acc.1 (rowGet row "Lot_ID").asStrOpt
    let lineDb := get_or_create_line lotDb.2 (rowGet row "Production_Line").asStrOpt
    let defDb := resolveInspectionDefect lineDb.2 row
    let r := mkInspectionRecord row lotDb.1 lineDb.1 defDb.1
    ({ defDb.2 with inspectionRecords := defDb.2.inspectionRecords ++ [r] }, acc.2)

/-- `services.import_inspection_data` on an open session. -/
def import_inspection_data (db : DB) (rows : List Row) : DB × Nat :=
  rows.foldl import_inspection_step (db, 0)

/-- The required-field test of `import_shipping_data`
(`Lot_ID` and `Ship_Date` truthy). -/
def requiredShipping (row : Row) : Bool :=
  (rowGet row "Lot_ID").truthy && (rowGet row "Ship_Date").truthy

/-- The fact record built for one accepted shipping row. -/
def mkShippingRecord (row : Row) (lot : Lot) : ShippingRecord :=
  { lot_id := lot.id
    ship_date := ((rowGet row "Ship_Date").asDateOpt).getD { year := 1, month := 1, day := 1 }
    sales_order_no := rowGetD row "Sales_Order_No" (Value.str "")
    customer := rowGetD row "Customer" (Value.str "")
    destination_state := rowGetD row "Destination_State" (Value.str "")
    carrier := rowGetD row "Carrier" (Value.str "")
    bol_no := rowGetD row "BOL_No" (Value.str "")
    tracking_pro := rowGet row "Tracking_PRO"
    qty_shipped := rowGetD row "Qty_Shipped" (Value.int 0)
    ship_status := rowGetD row "Ship_Status" (Value.str "Pending")
    hold_reason := rowGet row "Hold_Reason"
    shipping_notes := rowGet row "Shipping_Notes" }

/-- One loop iteration of `import_shipping_data`. -/
def import_shipping_step (acc : DB × Nat) (row : Row) : DB × Nat :=
  if !(rowGet row "Lot_ID").truthy || !(rowGet row "Ship_Date").truthy then
    (acc.1, acc.2 + 1)
  else
    let lotDb := get_or_create_lot acc.1 (rowGet row "Lot_ID").asStrOpt
    let r := mkShippingRecord row lotDb.1
    ({ lotDb.2 with shippingRecords := lotDb.2.shippingRecords ++ [r] }, acc.2)

/-- `services.import_shipping_data` on an open session. -/
def import_shipping_data (db : DB) (rows : List Row) : DB × Nat :=
  rows.foldl import_shipping_step (db, 0)

/-! ## The transaction wrapper (`database.get_session`) and a failure
model for `import_production_data` (claim C5).

`get_session` commits the session when its body completes normally and
rolls it back (restoring the pre-call store) when the body raises.  The
importer runs its whole row loop inside one `get_session` scope, so a
storage failure at any row aborts the call with nothing committed.  The
failure model lets the `session.add` of the `k`-th accepted row raise. -/

/-- The row loop of `import_production_data` with failure injection:
`failAt k` makes the `k`-th `session.add` of an accepted row raise
(skipped rows touch no storage, so they cannot fail). -/
def import_production_go (failAt : Nat → Bool) :
    List Row → DB → Nat → Nat → Except Unit (DB × Nat)
  | [], db, skipped, _ => Except.ok (db, skipped)
  | row :: rest, db, skipped, k =>
    if requiredProduction row then
      if failAt k then Except.error ()
      else
        import_production_go failAt rest (import_production_step (db, skipped) row).1
          skipped (k + 1)
    else import_production_go failAt rest db (skipped + 1) k

/-- `database.get_session`: commit the body's session state on normal
completion; on an exception, roll back so the visible store is the
pre-call one, and re-raise (the second component is `none` when the call
raised). -/
def run_in_session (db : DB) (body : Except Unit (DB × Nat)) : DB × Option Nat :=
  match body with
  | Except.ok (db2, skipped) => (db2, some skipped)
  | Except.error _ => (db, Option.none)

/-- `import_production_data` under the failure model, as observed by the
caller: the committed store plus the reported tally (or `none` when the
batch raised). -/
def import_production_data_tx (failAt : Nat → Bool) (db : DB) (rows : List Row) :
    DB × Option Nat :=
  run_in_session db (import_production_go failAt rows db 0 0)

/-! ## The seeded test dataset (spec §8, `tests/test_services.py`) -/

/-- `f"L{i:03}"` for the seeded lot identifiers (all seeded indices are
below 100, so at most two leading zeros are needed). -/
def padLotIndex (i : Nat) : String :=
  if i < 10 then "00" ++ toString i else if i < 100 then "0" ++ toString i else toString i

/-- One seeded inspection row: day index `i` (from 2023-01-01, staying
within January for `i < 31`), line `ln`, one defect, defect code `"D1"`
for even days and `"D2"` for odd days. -/
def seedRow (i : Nat) (ln : String) : Row :=
  [("Lot_ID", Value.str ("L" ++ padLotIndex i)),
   ("Production_Line", Value.str ln),
   ("Inspection_Date", Value.date { year := 2023, month := 1, day := 1 + i }),
   ("Inspection_Time", Value.none),
   ("Inspector", Value.str "X"),
   ("Part_Number", Value.str "P1"),
   ("Defect_Code", Value.str (if i % 2 = 0 then "D1" else "D2")),
   ("Defect_Description", Value.str ""),
   ("Severity", Value.str ""),
   ("Qty_Checked", Value.int 100),
   ("Qty_Defects", Value.int 1),
   ("Disposition", Value.none),
   ("Notes", Value.none)]

/-- The 14 days × 3 lines of seeded inspection rows. -/
def seedRows : List Row :=
  (List.range 14).flatMap (fun i => ["A", "B", "C"].map (fun ln => seedRow i ln))

/-- The store after importing the seeded inspection rows into a fresh
database. -/
def seededDB : DB := (import_inspection_data emptyDB seedRows).1

/-! ## Concrete data for witnesses and counterexamples -/

/-- A pending (not shipped) shipping record for the witness store. -/
def pendingShipRecord : ShippingRecord :=
  { lot_id := 1, ship_date := { year := 2023, month := 1, day := 5 },
    sales_order_no := Value.str "", customer := Value.str "",
    destination_state := Value.str "", carrier := Value.str "",
    bol_no := Value.str "", tracking_pro := Value.none,
    qty_shipped := Value.int 10, ship_status := Value.str "Pending",
    hold_reason := Value.none, shipping_notes := Value.none }

/-- A store holding one lot with a single pending (not shipped) shipping
record. -/
def pendingDB : DB :=
  { lots := [{ id := 1, lot := "LOT1" }], lines := [], defects := [],
    productionRecords := [], inspectionRecords := [],
    shippingRecords := [pendingShipRecord],
    nextLotId := 2, nextLineId := 1, nextDefectId := 1 }

/-- The shipping row of the spec's §8 shipment-lookup scenario: lot
`"Lot-100"`, status `"Shipped"`, date 2023-03-01. -/
def ship100Row : Row :=
  [("Lot_ID", Value.str "Lot-100"),
   ("Ship_Date", Value.date { year := 2023, month := 3, day := 1 }),
   ("Sales_Order_No", Value.str "SO1"),
   ("Customer", Value.str "C1"),
   ("Destination_State", Value.str "WA"),
   ("Carrier", Value.str "FedEx"),
   ("BOL_No", Value.str "BOL1"),
   ("Tracking_PRO", Value.none),
   ("Qty_Shipped", Value.int 100),
   ("Ship_Status", Value.str "Shipped")]

/-- The store after importing that one shipping row into a fresh
database. -/
def shipped100DB : DB := (import_shipping_data emptyDB [ship100Row]).1

/-- A complete production row (all required fields present) for the
transaction-model witness. -/
def prodRow : Row :=
  [("Lot_ID", Value.str "Lot-7"),
   ("Production_Line", Value.str "A"),
   ("Production_Date", Value.date { year := 2023, month := 2, day := 3 }),
   ("Shift", Value.str "Day"),
   ("Units_Planned", Value.int 50),
   ("Units_Actual", Value.int 48)]

set_option maxRecDepth 100000

/-! ## Character and normalization lemmas -/

theorem charOfNat_toNat (n : Nat) (h1 : 65 ≤ n) (h2 : n ≤ 90) : (Char.ofNat n).toNat = n := by
  have hv : n.isValidChar := Or.inl (by omega)
  simp [Char.ofNat, hv, Char.ofNatAux, Char.toNat, UInt32.toNat, BitVec.toNat_ofNatLt]

theorem asciiUpper_toNat (c : Char) (h1 : 97 ≤ c.toNat) (h2 : c.toNat ≤ 122) :
    (asciiUpper c).toNat = c.toNat - 32 := by
  have hcond : (97 ≤ c.toNat && c.toNat ≤ 122) = true := by simp [h1, h2]
  rw [asciiUpper, if_pos hcond]
  exact charOfNat_toNat _ (by omega) (by omega)

theorem asciiUpper_eq_self (c : Char) (h : ¬(97 ≤ c.toNat ∧ c.toNat ≤ 122)) :
    asciiUpper c = c := by
  rw [asciiUpper, if_neg]
  simp only [Bool.and_eq_true, decide_eq_true_eq]
  exact h

theorem asciiUpper_alnum (c : Char) (h : isAsciiAlnum c = true) :
    isAsciiAlnum (asciiUpper c) = true ∧ asciiUpper (asciiUpper c) = asciiUpper c := by
  by_cases hc : 97 ≤ c.toNat ∧ c.toNat ≤ 122
  · have ht := asciiUpper_toNat c hc.1 hc.2
    have h2 : asciiUpper (asciiUpper c) = asciiUpper c :=
      asciiUpper_eq_self _ (by omega)
    refine ⟨?_, h2⟩
    simp only [isAsciiAlnum, ht, Bool.or_eq_true, Bool.and_eq_true, decide_eq_true_eq]
    omega
  · rw [asciiUpper_eq_self c hc]
    exact ⟨h, asciiUpper_eq_self c hc⟩

theorem filter_map_asciiUpper (l : List Char) (h : ∀ c ∈ l, isAsciiAlnum c = true) :
    ((l.map asciiUpper).filter isAsciiAlnum).map asciiUpper = l.map asciiUpper := by
  induction l with
  | nil => rfl
  | cons c cs ih =>
    have hc := asciiUpper_alnum c (h c (List.mem_cons_self c cs))
    simp only [List.map_cons, List.filter_cons, hc.1, if_true, List.map_cons, hc.2]
    rw [ih (fun x hx => h x (List.mem_cons_of_mem c hx))]

/-- C8: the identifier normalizer keeps exactly the ASCII letters and
digits of its input, uppercased; null and empty input yield the empty
string; `"Lot-001 A"` and `"LOT 001A"` both normalize to `"LOT001A"`;
and normalization is idempotent. -/
theorem spec_C8 :
    normalize_lot_id Option.none = "" ∧
    normalize_lot_id (some "") = "" ∧
    normalize_lot_id (some "Lot-001 A") = "LOT001A" ∧
    normalize_lot_id (some "LOT 001A") = "LOT001A" ∧
    (∀ s : String, (normalize_lot_id (some s)).data = (s.data.filter isAsciiAlnum).map asciiUpper) ∧
    (∀ s : String, normalize_lot_id (some (normalize_lot_id (some s))) = normalize_lot_id (some s)) := by
  refine ⟨rfl, rfl, by decide, by decide, fun s => rfl, fun s => ?_⟩
  show String.mk _ = String.mk _
  exact congrArg String.mk
    (filter_map_asciiUpper (s.data.filter isAsciiAlnum)
      (fun c hc => (List.mem_filter.mp hc).2))

/-! ## String order lemmas (for the key sort of `trending_defects`) -/

theorem charEq_of_toNat (a b : Char) (h : a.toNat = b.toNat) : a = b :=
  Char.ext (UInt32.ext h)

theorem charListLtB_asymm : ∀ x y : List Char,
    charListLtB x y = true → charListLtB y x = false := by
  intro x
  induction x with
  | nil => intro y _; cases y <;> rfl
  | cons a as ih =>
    intro y h
    cases y with
    | nil => simp [charListLtB] at h
    | cons b bs =>
      simp only [charListLtB, Bool.or_eq_true, Bool.and_eq_true, decide_eq_true_eq,
        beq_iff_eq] at h
      simp only [charListLtB, Bool.or_eq_false_iff, Bool.and_eq_false_iff,
        decide_eq_false_iff_not, beq_eq_false_iff_ne, ne_eq]
      rcases h with h | ⟨h1, h2⟩
      · exact ⟨by omega, Or.inl (by omega)⟩
      · exact ⟨by omega, Or.inr (ih bs h2)⟩

theorem charListLtB_trans : ∀ x y z : List Char,
    charListLtB x y = true → charListLtB y z = true → charListLtB x z = true := by
  intro x
  induction x with
  | nil =>
    intro y z h1 h2
    cases y with
    | nil => simp [charListLtB] at h1
    | cons b bs =>
      cases z with
      | nil => simp [charListLtB] at h2
      | cons c cs => rfl
  | cons a as ih =>
    intro y z h1 h2
    cases y with
    | nil => simp [charListLtB] at h1
    | cons b bs =>
      cases z with
      | nil => simp [charListLtB] at h2
      | cons c cs =>
        simp only [charListLtB, Bool.or_eq_true, Bool.and_eq_true, decide_eq_true_eq,
          beq_iff_eq] at h1 h2 ⊢
        rcases h1 with h1 | ⟨h1, h1'⟩ <;> rcases h2 with h2 | ⟨h2, h2'⟩
        · left; omega
        · left; omega
        · left; omega
        · right; exact ⟨by omega, ih bs cs h1' h2'⟩

theorem charListLtB_total_eq : ∀ x y : List Char,
    charListLtB x y = false → charListLtB y x = false → x = y := by
  intro x
  induction x with
  | nil => intro y h1 _; cases y with
    | nil => rfl
    | cons b bs => simp [charListLtB] at h1
  | cons a as ih =>
    intro y h1 h2
    cases y with
    | nil => simp [charListLtB] at h2
    | cons b bs =>
      simp only [charListLtB, Bool.or_eq_false_iff, Bool.and_eq_false_iff,
        decide_eq_false_iff_not, beq_eq_false_iff_ne, ne_eq] at h1 h2
      have hab : a.toNat = b.toNat := by omega
      rcases h1.2 with h | h
      · exact absurd hab h
      · rcases h2.2 with h' | h'
        · exact absurd hab.symm h'
        · rw [charEq_of_toNat a b hab, ih bs h h']

theorem strEq_of_not_lt (a b : String) (h1 : strLtB a b = false) (h2 : strLtB b a = false) :
    a = b := by
  cases a; cases b
  exact congrArg String.mk (charListLtB_total_eq _ _ h1 h2)

theorem charListLeB_trans (x y z : List Char) (h1 : charListLtB y x = false)
    (h2 : charListLtB z y = false) : charListLtB z x = false := by
  rcases h3 : charListLtB z x
  · rfl
  · exfalso
    rcases h4 : charListLtB x y
    · have hxy := charListLtB_total_eq x y h4 h1
      rw [hxy] at h3
      rw [h3] at h2
      exact Bool.true_eq_false.mp h2
    · have h5 := charListLtB_trans z x y h3 h4
      rw [h5] at h2
      exact Bool.true_eq_false.mp h2

instance : IsTotal (String × String) ascKey := by
  constructor
  intro a b
  unfold ascKey ascKeyB strLeB strLtB
  rcases h1 : charListLtB a.1.data b.1.data
  · rcases h2 : charListLtB b.1.data a.1.data
    · have he : a.1 = b.1 := strEq_of_not_lt _ _ h1 h2
      rcases h3 : charListLtB b.2.data a.2.data
      · left; simp [he, h3]
      · right
        have h4 : charListLtB a.2.data b.2.data = false := charListLtB_asymm _ _ h3
        simp [he, h4]
    · right; simp [h2]
  · left; simp

instance : IsTrans (String × String) ascKey := by
  constructor
  intro a b c hab hbc
  unfold ascKey ascKeyB strLeB strLtB at hab hbc ⊢
  simp only [Bool.or_eq_true, Bool.and_eq_true, beq_iff_eq, Bool.not_eq_true'] at hab hbc ⊢
  rcases hab with h1 | ⟨h1, h1'⟩
  · rcases hbc with h2 | ⟨h2, h2'⟩
    · exact Or.inl (charListLtB_trans _ _ _ h1 h2)
    · exact Or.inl (h2 ▸ h1)
  · rcases hbc with h2 | ⟨h2, h2'⟩
    · exact Or.inl (h1 ▸ h2)
    · exact Or.inr ⟨h1.trans h2, charListLeB_trans _ _ _ h1' h2'⟩

instance : IsTotal (String × Int) descByTotal := ⟨fun a b => le_total b.2 a.2⟩

instance : IsTrans (String × Int) descByTotal := ⟨fun _ _ _ h1 h2 => le_trans h2 h1⟩

/-! ## Date order lemmas -/

theorem dateLeB_refl (a : PyDate) : dateLeB a a = true := by
  simp [dateLeB]

theorem dateLeB_trans (a b c : PyDate) (h1 : dateLeB a b = true) (h2 : dateLeB b c = true) :
    dateLeB a c = true := by
  simp only [dateLeB, Bool.or_eq_true, Bool.and_eq_true, decide_eq_true_eq,
    beq_iff_eq] at h1 h2 ⊢
  omega

theorem dateLeB_of_not_ltB (a b : PyDate) (h : dateLtB a b = false) : dateLeB b a = true := by
  simp only [dateLtB, Bool.or_eq_false_iff, Bool.and_eq_false_iff, Bool.or_eq_false_iff,
    decide_eq_false_iff_not, beq_eq_false_iff_ne, ne_eq] at h
  simp only [dateLeB, Bool.or_eq_true, Bool.and_eq_true, decide_eq_true_eq, beq_iff_eq]
  omega

theorem dateLeB_of_ltB (a b : PyDate) (h : dateLtB a b = true) : dateLeB a b = true := by
  simp only [dateLtB, Bool.or_eq_true, Bool.and_eq_true, decide_eq_true_eq,
    beq_iff_eq] at h
  simp only [dateLeB, Bool.or_eq_true, Bool.and_eq_true, decide_eq_true_eq, beq_iff_eq]
  omega

/-! ## Latest-shipping-record lemmas -/

theorem latestPick_fold (l : List ShippingRecord) : ∀ b : ShippingRecord,
    ∃ r, l.foldl latestPick (some b) = some r ∧ (r = b ∨ r ∈ l) ∧
      dateLeB b.ship_date r.ship_date = true ∧
      ∀ x ∈ l, dateLeB x.ship_date r.ship_date = true := by
  induction l with
  | nil =>
    intro b
    exact ⟨b, rfl, Or.inl rfl, dateLeB_refl b.ship_date, by simp⟩
  | cons x xs ih =>
    intro b
    rcases hd : dateLtB b.ship_date x.ship_date
    · obtain ⟨r, hfold, hmem, hbr, hall⟩ := ih b
      refine ⟨r, ?_, ?_, hbr, ?_⟩
      · simpa [List.foldl_cons, latestPick, hd] using hfold
      · rcases hmem with h | h
        · exact Or.inl h
        · exact Or.inr (List.mem_cons_of_mem x h)
      · intro y hy
        rcases List.mem_cons.mp hy with h | h
        · subst h
          exact dateLeB_trans _ _ _ (dateLeB_of_not_ltB _ _ hd) hbr
        · exact hall y h
    · obtain ⟨r, hfold, hmem, hxr, hall⟩ := ih x
      refine ⟨r, ?_, ?_, ?_, ?_⟩
      · simpa [List.foldl_cons, latestPick, hd] using hfold
      · rcases hmem with h | h
        · exact Or.inr (h ▸ List.mem_cons_self x xs)
        · exact Or.inr (List.mem_cons_of_mem x h)
      · exact dateLeB_trans _ _ _ (dateLeB_of_ltB _ _ hd) hxr
      · intro y hy
        rcases List.mem_cons.mp hy with h | h
        · exact h ▸ hxr
        · exact hall y h

theorem latestShipping_cons (x : ShippingRecord) (xs : List ShippingRecord) :
    ∃ r, latestShipping (x :: xs) = some r ∧ r ∈ x :: xs ∧
      ∀ y ∈ x :: xs, dateLeB y.ship_date r.ship_date = true := by
  obtain ⟨r, hfold, hmem, hxr, hall⟩ := latestPick_fold xs x
  refine ⟨r, ?_, ?_, ?_⟩
  · simpa [latestShipping, List.foldl_cons, latestPick] using hfold
  · rcases hmem with h | h
    · exact h ▸ List.mem_cons_self x xs
    · exact List.mem_cons_of_mem x h
  · intro y hy
    rcases List.mem_cons.mp hy with h | h
    · exact h ▸ hxr
    · exact hall y h

/-! ## Claim C1 -/

/-- C1: the shipment-status lookup normalizes the query and looks up the
Lot by the normalized key; a missing Lot yields the distinguished
no-result value `none`, which is distinct from the `some (false, date)`
result produced when the lot exists and its most recent shipping record
is not in status `"Shipped"`. -/
theorem spec_C1 (db : DB) (q : String) :
    (lookupLot db (some q) = Option.none → shipping_status_for_lot db q = Option.none) ∧
    (∀ lot r, lookupLot db (some q) = some lot →
      latestShipping (shipRecords db lot.id) = some r →
      (r.ship_status == Value.str "Shipped") = false →
      shipping_status_for_lot db q = some (false, r.ship_date) ∧
        some (false, r.ship_date) ≠ (Option.none : Option (Bool × PyDate))) := by
  constructor
  · intro h
    unfold shipping_status_for_lot
    rw [h]
  · intro lot r h1 h2 h3
    refine ⟨?_, by simp⟩
    simp only [shipping_status_for_lot, h1, h2, h3]

theorem spec_C1_witness :
    (shipping_status_for_lot emptyDB "no-such-lot" = Option.none) ∧
    (shipping_status_for_lot pendingDB "lot 1" = some (false, pendingShipRecord.ship_date) ∧
      some (false, pendingShipRecord.ship_date) ≠ (Option.none : Option (Bool × PyDate))) :=
  ⟨(spec_C1 emptyDB "no-such-lot").1 (by decide),
   (spec_C1 pendingDB "lot 1").2 { id := 1, lot := "LOT1" } pendingShipRecord
     (by decide) (by decide) (by decide)⟩

/-! ## Claim C2 -/

/-- C2: when the normalized query matches an existing Lot that has at
least one shipping record, the lookup returns `(is_shipped, ship_date)`
for a record with the maximal ship date among that lot's shipping
records, with `is_shipped` true iff that record's status equals the
literal `"Shipped"` (case-sensitive exact comparison); concretely,
importing a `"Shipped"` record for `"Lot-100"` dated 2023-03-01 and
querying `"lot 100"` yields `(true, 2023-03-01)`. -/
theorem spec_C2 :
    (∀ (db : DB) (q : String) (lot : Lot), lookupLot db (some q) = some lot →
      shipRecords db lot.id ≠ [] →
      ∃ r, r ∈ shipRecords db lot.id ∧
        (∀ x ∈ shipRecords db lot.id, dateLeB x.ship_date r.ship_date = true) ∧
        shipping_status_for_lot db q =
          some (r.ship_status == Value.str "Shipped", r.ship_date)) ∧
    shipping_status_for_lot shipped100DB "lot 100" =
      some (true, { year := 2023, month := 3, day := 1 }) := by
  constructor
  · intro db q lot h1 h2
    rcases hrec : shipRecords db lot.id with _ | ⟨x, xs⟩
    · exact absurd hrec h2
    · obtain ⟨r, hlatest, hmem, hall⟩ := latestShipping_cons x xs
      refine ⟨r, hrec ▸ hmem, fun y hy => hall y (hrec ▸ hy), ?_⟩
      simp only [shipping_status_for_lot, h1, hrec, hlatest]
  · decide

theorem spec_C2_witness :
    ∃ r, r ∈ shipRecords shipped100DB 1 ∧
      (∀ x ∈ shipRecords shipped100DB 1, dateLeB x.ship_date r.ship_date = true) ∧
      shipping_status_for_lot shipped100DB "lot 100" =
        some (r.ship_status == Value.str "Shipped", r.ship_date) :=
  spec_C2.1 shipped100DB "lot 100" { id := 1, lot := "LOT100" } (by decide) (by decide)

/-! ## Claim C7 -/

theorem get_or_create_lot_stable (db : DB) (s1 s2 : Option String)
    (hkey : normalize_lot_id s1 = normalize_lot_id s2) :
    get_or_create_lot ((get_or_create_lot db s1).2) s2 = get_or_create_lot db s1 := by
  unfold get_or_create_lot
  rw [← hkey]
  cases hfind : db.lots.find? (fun l => l.lot == normalize_lot_id s1) with
  | none => simp [hfind, List.find?_append]
  | some existing => simp [hfind]

theorem get_or_create_line_stable (db : DB) (s1 s2 : Option String)
    (hkey : canonLineKey s1 = canonLineKey s2) :
    get_or_create_line ((get_or_create_line db s1).2) s2 = get_or_create_line db s1 := by
  unfold get_or_create_line
  rw [← hkey]
  cases hfind : db.lines.find? (fun l => l.line == canonLineKey s1) with
  | none => simp [hfind, List.find?_append]
  | some existing => simp [hfind]

theorem get_or_create_defect_stable (db : DB) (s1 s2 : Option String)
    (hkey : canonDefectKey s1 = canonDefectKey s2) :
    get_or_create_defect ((get_or_create_defect db s1).2) s2 = get_or_create_defect db s1 := by
  unfold get_or_create_defect
  rw [← hkey]
  cases hfind : db.defects.find? (fun d => d.defect_code == canonDefectKey s1) with
  | none => simp [hfind, List.find?_append]
  | some existing => simp [hfind]

theorem get_or_create_lot_append (db : DB) (s : Option String) :
    (get_or_create_lot db s).2.lots = db.lots ∨
      (get_or_create_lot db s).2.lots = db.lots ++ [(get_or_create_lot db s).1] := by
  unfold get_or_create_lot
  cases hfind : db.lots.find? (fun l => l.lot == normalize_lot_id s) with
  | none => simp [hfind]
  | some existing => simp [hfind]

theorem get_or_create_line_append (db : DB) (s : Option String) :
    (get_or_create_line db s).2.lines = db.lines ∨
      (get_or_create_line db s).2.lines = db.lines ++ [(get_or_create_line db s).1] := by
  unfold get_or_create_line
  cases hfind : db.lines.find? (fun l => l.line == canonLineKey s) with
  | none => simp [hfind]
  | some existing => simp [hfind]

theorem get_or_create_defect_append (db : DB) (s : Option String) :
    (get_or_create_defect db s).2.defects = db.defects ∨
      (get_or_create_defect db s).2.defects = db.defects ++ [(get_or_create_defect db s).1] := by
  unfold get_or_create_defect
  cases hfind : db.defects.find? (fun d => d.defect_code == canonDefectKey s) with
  | none => simp [hfind]
  | some existing => simp [hfind]

theorem get_or_create_lot_nodup (db : DB) (s : Option String)
    (h : (db.lots.map (fun l => l.lot)).Nodup) :
    ((get_or_create_lot db s).2.lots.map (fun l => l.lot)).Nodup := by
  unfold get_or_create_lot
  cases hfind : db.lots.find? (fun l => l.lot == normalize_lot_id s) with
  | some existing => simpa [hfind] using h
  | none =>
    simp only [hfind, List.map_append, List.map_cons, List.map_nil, List.nodup_append]
    refine ⟨h, List.nodup_singleton _, ?_⟩
    intro a ha hb
    simp only [List.mem_singleton] at hb
    subst hb
    obtain ⟨l, hl, hla⟩ := List.mem_map.mp ha
    have := List.find?_eq_none.mp hfind l hl
    simp only [beq_iff_eq] at this
    exact this hla

theorem get_or_create_line_nodup (db : DB) (s : Option String)
    (h : (db.lines.map (fun l => l.line)).Nodup) :
    ((get_or_create_line db s).2.lines.map (fun l => l.line)).Nodup := by
  unfold get_or_create_line
  cases hfind : db.lines.find? (fun l => l.line == canonLineKey s) with
  | some existing => simpa [hfind] using h
  | none =>
    simp only [hfind, List.map_append, List.map_cons, List.map_nil, List.nodup_append]
    refine ⟨h, List.nodup_singleton _, ?_⟩
    intro a ha hb
    simp only [List.mem_singleton] at hb
    subst hb
    obtain ⟨l, hl, hla⟩ := List.mem_map.mp ha
    have := List.find?_eq_none.mp hfind l hl
    simp only [beq_iff_eq] at this
    exact this hla

theorem get_or_create_defect_nodup (db : DB) (s : Option String)
    (h : (db.defects.map (fun d => d.defect_code)).Nodup) :
    ((get_or_create_defect db s).2.defects.map (fun d => d.defect_code)).Nodup := by
  unfold get_or_create_defect
  cases hfind : db.defects.find? (fun d => d.defect_code == canonDefectKey s) with
  | some existing => simpa [hfind] using h
  | none =>
    simp only [hfind, List.map_append, List.map_cons, List.map_nil, List.nodup_append]
    refine ⟨h, List.nodup_singleton _, ?_⟩
    intro a ha hb
    simp only [List.mem_singleton] at hb
    subst hb
    obtain ⟨l, hl, hla⟩ := List.mem_map.mp ha
    have := List.find?_eq_none.mp hfind l hl
    simp only [beq_iff_eq] at this
    exact this hla

/-- C7: reference resolution is stable and idempotent for each dimension:
resolving a key with the same canonical form twice returns the same
entity and leaves the store unchanged the second time (in particular two
raw lot strings with equal normalized forms resolve to the same Lot);
resolution only ever appends a new entity (never updates or deletes an
existing one); and canonical-key uniqueness of each dimension set is
preserved. -/
theorem spec_C7 :
    (∀ (db : DB) (s1 s2 : Option String), normalize_lot_id s1 = normalize_lot_id s2 →
      get_or_create_lot ((get_or_create_lot db s1).2) s2 = get_or_create_lot db s1) ∧
    (∀ (db : DB) (s : Option String),
      (get_or_create_lot db s).2.lots = db.lots ∨
        (get_or_create_lot db s).2.lots = db.lots ++ [(get_or_create_lot db s).1]) ∧
    (∀ (db : DB) (s : Option String), (db.lots.map (fun l => l.lot)).Nodup →
      ((get_or_create_lot db s).2.lots.map (fun l => l.lot)).Nodup) ∧
    (∀ (db : DB) (s1 s2 : Option String), canonLineKey s1 = canonLineKey s2 →
      get_or_create_line ((get_or_create_line db s1).2) s2 = get_or_create_line db s1) ∧
    (∀ (db : DB) (s : Option String),
      (get_or_create_line db s).2.lines = db.lines ∨
        (get_or_create_line db s).2.lines = db.lines ++ [(get_or_create_line db s).1]) ∧
    (∀ (db : DB) (s : Option String), (db.lines.map (fun l => l.line)).Nodup →
      ((get_or_create_line db s).2.lines.map (fun l => l.line)).Nodup) ∧
    (∀ (db : DB) (s1 s2 : Option String), canonDefectKey s1 = canonDefectKey s2 →
      get_or_create_defect ((get_or_create_defect db s1).2) s2 = get_or_create_defect db s1) ∧
    (∀ (db : DB) (s : Option String),
      (get_or_create_defect db s).2.defects = db.defects ∨
        (get_or_create_defect db s).2.defects =
          db.defects ++ [(get_or_create_defect db s).1]) ∧
    (∀ (db : DB) (s : Option String), (db.defects.map (fun d => d.defect_code)).Nodup →
      ((get_or_create_defect db s).2.defects.map (fun d => d.defect_code)).Nodup) :=
  ⟨get_or_create_lot_stable, get_or_create_lot_append, get_or_create_lot_nodup,
   get_or_create_line_stable, get_or_create_line_append, get_or_create_line_nodup,
   get_or_create_defect_stable, get_or_create_defect_append, get_or_create_defect_nodup⟩

theorem spec_C7_witness :
    get_or_create_lot ((get_or_create_lot emptyDB (some "Lot-100")).2) (some "LOT 100") =
      get_or_create_lot emptyDB (some "Lot-100") ∧
    ((get_or_create_lot emptyDB (some "Lot-100")).2.lots.map (fun l => l.lot)).Nodup ∧
    get_or_create_line ((get_or_create_line emptyDB (some " b ")).2) (some "B") =
      get_or_create_line emptyDB (some " b ") ∧
    get_or_create_defect ((get_or_create_defect emptyDB Option.none).2) (some "") =
      get_or_create_defect emptyDB Option.none :=
  ⟨(spec_C7.1) emptyDB (some "Lot-100") (some "LOT 100") (by decide),
   (spec_C7.2.2.1) emptyDB (some "Lot-100") (by decide),
   (spec_C7.2.2.2.1) emptyDB (some " b ") (some "B") (by decide),
   (spec_C7.2.2.2.2.2.2.1) emptyDB Option.none (some "") (by decide)⟩

/-! ## Resolver preservation lemmas -/

theorem get_or_create_lot_preserves (db : DB) (s : Option String) :
    (get_or_create_lot db s).2.lines = db.lines ∧
    (get_or_create_lot db s).2.defects = db.defects ∧
    (get_or_create_lot db s).2.productionRecords = db.productionRecords ∧
    (get_or_create_lot db s).2.inspectionRecords = db.inspectionRecords ∧
    (get_or_create_lot db s).2.shippingRecords = db.shippingRecords := by
  unfold get_or_create_lot
  cases hfind : db.lots.find? (fun l => l.lot == normalize_lot_id s) <;> simp [hfind]

theorem get_or_create_line_preserves (db : DB) (s : Option String) :
    (get_or_create_line db s).2.lots = db.lots ∧
    (get_or_create_line db s).2.defects = db.defects ∧
    (get_or_create_line db s).2.productionRecords = db.productionRecords ∧
    (get_or_create_line db s).2.inspectionRecords = db.inspectionRecords ∧
    (get_or_create_line db s).2.shippingRecords = db.shippingRecords := by
  unfold get_or_create_line
  cases hfind : db.lines.find? (fun l => l.line == canonLineKey s) <;> simp [hfind]

theorem get_or_create_defect_preserves (db : DB) (s : Option String) :
    (get_or_create_defect db s).2.lots = db.lots ∧
    (get_or_create_defect db s).2.lines = db.lines ∧
    (get_or_create_defect db s).2.productionRecords = db.productionRecords ∧
    (get_or_create_defect db s).2.inspectionRecords = db.inspectionRecords ∧
    (get_or_create_defect db s).2.shippingRecords = db.shippingRecords := by
  unfold get_or_create_defect
  cases hfind : db.defects.find? (fun d => d.defect_code == canonDefectKey s) <;> simp [hfind]

theorem resolveInspectionDefect_preserves (db : DB) (row : Row) :
    (resolveInspectionDefect db row).2.lots = db.lots ∧
    (resolveInspectionDefect db row).2.lines = db.lines ∧
    (resolveInspectionDefect db row).2.productionRecords = db.productionRecords ∧
    (resolveInspectionDefect db row).2.inspectionRecords = db.inspectionRecords ∧
    (resolveInspectionDefect db row).2.shippingRecords = db.shippingRecords := by
  unfold resolveInspectionDefect
  dsimp only
  split
  · split
    · simpa using get_or_create_defect_preserves db (rowGet row "Defect_Code").asStrOpt
    · simp
  · simp

/-! ## Production importer step lemmas -/

theorem import_production_step_skip (acc : DB × Nat) (row : Row)
    (h : requiredProduction row = false) :
    import_production_step acc row = (acc.1, acc.2 + 1) := by
  have hc : (!(rowGet row "Lot_ID").truthy || !(rowGet row "Production_Date").truthy ||
      !(rowGet row "Production_Line").truthy) = true := by
    unfold requiredProduction at h
    rcases h1 : (rowGet row "Lot_ID").truthy <;>
      rcases h2 : (rowGet row "Production_Date").truthy <;>
        rcases h3 : (rowGet row "Production_Line").truthy <;>
          simp_all
  unfold import_production_step
  rw [if_pos hc]

theorem import_production_step_accept (acc : DB × Nat) (row : Row)
    (h : requiredProduction row = true) :
    (import_production_step acc row).2 = acc.2 ∧
    (import_production_step acc row).1.productionRecords.length =
      acc.1.productionRecords.length + 1 ∧
    (import_production_step acc row).1 = (import_production_step (acc.1, 0) row).1 := by
  have hc : (!(rowGet row "Lot_ID").truthy || !(rowGet row "Production_Date").truthy ||
      !(rowGet row "Production_Line").truthy) = false := by
    unfold requiredProduction at h
    rcases h1 : (rowGet row "Lot_ID").truthy <;>
      rcases h2 : (rowGet row "Production_Date").truthy <;>
        rcases h3 : (rowGet row "Production_Line").truthy <;>
          simp_all
  unfold import_production_step
  rw [if_neg (by simp [hc]), if_neg (by simp [hc])]
  refine ⟨rfl, ?_, rfl⟩
  have h1 := (get_or_create_lot_preserves acc.1 (rowGet row "Lot_ID").asStrOpt).2.2.1
  have h2 := (get_or_create_line_preserves
    (get_or_create_lot acc.1 (rowGet row "Lot_ID").asStrOpt).2
    (rowGet row "Production_Line").asStrOpt).2.2.1
  simp [h1, h2]

theorem import_production_fold_fst_sk (rows : List Row) : ∀ (db : DB) (sk sk2 : Nat),
    (rows.foldl import_production_step (db, sk)).1 =
      (rows.foldl import_production_step (db, sk2)).1 := by
  induction rows with
  | nil => intro db sk sk2; rfl
  | cons row rest ih =>
    intro db sk sk2
    rcases hreq : requiredProduction row
    · rw [List.foldl_cons, List.foldl_cons, import_production_step_skip (db, sk) row hreq,
        import_production_step_skip (db, sk2) row hreq]
      exact ih db (sk + 1) (sk2 + 1)
    · obtain ⟨hsnd1, _, hfst1⟩ := import_production_step_accept (db, sk) row hreq
      obtain ⟨hsnd2, _, hfst2⟩ := import_production_step_accept (db, sk2) row hreq
      rw [List.foldl_cons, List.foldl_cons]
      have he1 : import_production_step (db, sk) row =
          ((import_production_step (db, 0) row).1, sk) := Prod.ext hfst1 hsnd1
      have he2 : import_production_step (db, sk2) row =
          ((import_production_step (db, 0) row).1, sk2) := Prod.ext hfst2 hsnd2
      rw [he1, he2]
      exact ih _ sk sk2

theorem import_production_fold_snd (rows : List Row) : ∀ (db : DB) (sk : Nat),
    (rows.foldl import_production_step (db, sk)).2 =
      sk + rows.countP (fun r => !(requiredProduction r)) := by
  induction rows with
  | nil => intro db sk; simp
  | cons row rest ih =>
    intro db sk
    rw [List.foldl_cons, List.countP_cons]
    rcases hreq : requiredProduction row
    · rw [import_production_step_skip (db, sk) row hreq]
      simp [ih db (sk + 1), hreq, Nat.add_assoc, Nat.add_comm 1]
    · obtain ⟨hsnd, _, hfst⟩ := import_production_step_accept (db, sk) row hreq
      have he : import_production_step (db, sk) row =
          ((import_production_step (db, 0) row).1, sk) := Prod.ext hfst hsnd
      rw [he]
      simp [ih _ sk, hreq]

theorem import_production_fold_len (rows : List Row) : ∀ (db : DB) (sk : Nat),
    (rows.foldl import_production_step (db, sk)).1.productionRecords.length =
      db.productionRecords.length + rows.countP requiredProduction := by
  induction rows with
  | nil => intro db sk; simp
  | cons row rest ih =>
    intro db sk
    rw [List.foldl_cons, List.countP_cons]
    rcases hreq : requiredProduction row
    · rw [import_production_step_skip (db, sk) row hreq]
      simp [ih db (sk + 1), hreq]
    · obtain ⟨hsnd, hlen, hfst⟩ := import_production_step_accept (db, sk) row hreq
      have he : import_production_step (db, sk) row =
          ((import_production_step (db, 0) row).1, sk) := Prod.ext hfst hsnd
      rw [he, ih _ sk]
      have hD : (import_production_step (db, 0) row).1.productionRecords.length =
          db.productionRecords.length + 1 :=
        (import_production_step_accept (db, 0) row hreq).2.1
      simp only [hreq, if_pos]
      omega

theorem import_production_fold_filter (rows : List Row) : ∀ (db : DB) (sk sk2 : Nat),
    ((rows.filter requiredProduction).foldl import_production_step (db, sk)).1 =
      (rows.foldl import_production_step (db, sk2)).1 := by
  induction rows with
  | nil => intro db sk sk2; rfl
  | cons row rest ih =>
    intro db sk sk2
    rcases hreq : requiredProduction row
    · rw [List.filter_cons_of_neg (by simp [hreq]), List.foldl_cons,
        import_production_step_skip (db, sk2) row hreq]
      exact ih db sk (sk2 + 1)
    · obtain ⟨hsnd, _, hfst⟩ := import_production_step_accept (db, sk) row hreq
      obtain ⟨hsnd2, _, hfst2⟩ := import_production_step_accept (db, sk2) row hreq
      have he : import_production_step (db, sk) row =
          ((import_production_step (db, 0) row).1, sk) := Prod.ext hfst hsnd
      have he2 : import_production_step (db, sk2) row =
          ((import_production_step (db, 0) row).1, sk2) := Prod.ext hfst2 hsnd2
      rw [List.filter_cons_of_pos (by simp [hreq]), List.foldl_cons, List.foldl_cons, he, he2]
      exact ih _ sk sk2

/-! ## Claim C5 -/

theorem import_production_go_ok (failAt : Nat → Bool) : ∀ (rows : List Row) (db : DB)
    (sk k : Nat) (db2 : DB) (sk2 : Nat),
    import_production_go failAt rows db sk k = Except.ok (db2, sk2) →
    rows.foldl import_production_step (db, sk) = (db2, sk2) := by
  intro rows
  induction rows with
  | nil =>
    intro db sk k db2 sk2 h
    simp only [import_production_go, Except.ok.injEq, Prod.mk.injEq] at h
    rw [List.foldl_nil, h.1, h.2]
  | cons row rest ih =>
    intro db sk k db2 sk2 h
    rw [import_production_go] at h
    rcases hreq : requiredProduction row
    · rw [if_neg (by simp [hreq])] at h
      rw [List.foldl_cons, import_production_step_skip (db, sk) row hreq]
      exact ih db (sk + 1) k db2 sk2 h
    · rcases hf : failAt k
      · rw [if_pos hreq, if_neg (by simp [hf])] at h
        obtain ⟨hsnd, _, hfst⟩ := import_production_step_accept (db, sk) row hreq
        have he : import_production_step (db, sk) row =
            ((import_production_step (db, sk) row).1, sk) := Prod.ext rfl hsnd
        rw [List.foldl_cons, he]
        exact ih _ sk (k + 1) db2 sk2 h
      · rw [if_pos hreq, if_pos hf] at h
        exact Except.noConfusion h

theorem import_production_go_nofail : ∀ (rows : List Row) (db : DB) (sk k : Nat),
    import_production_go (fun _ => false) rows db sk k =
      Except.ok (rows.foldl import_production_step (db, sk)) := by
  intro rows
  induction rows with
  | nil => intro db sk k; rfl
  | cons row rest ih =>
    intro db sk k
    rw [import_production_go]
    rcases hreq : requiredProduction row
    · rw [if_neg (by simp)]
      rw [List.foldl_cons, import_production_step_skip (db, sk) row hreq]
      exact ih db (sk + 1) k
    · rw [if_pos rfl, if_neg (by simp)]
      obtain ⟨hsnd, _, _⟩ := import_production_step_accept (db, sk) row hreq
      have he : import_production_step (db, sk) row =
          ((import_production_step (db, sk) row).1, sk) := Prod.ext rfl hsnd
      rw [List.foldl_cons, he]
      exact ih _ sk (k + 1)

/-- C5: one import call is one transaction.  If persistence fails at any
row of the batch, `get_session` rolls back and the caller observes the
pre-call store with no row committed; if the body completes normally the
whole batch commits at once, and the committed store is exactly the one
the pure importer produces. -/
theorem spec_C5 (failAt : Nat → Bool) (db : DB) (rows : List Row) :
    (import_production_go failAt rows db 0 0 = Except.error () →
      import_production_data_tx failAt db rows = (db, Option.none)) ∧
    (∀ (db2 : DB) (sk : Nat), import_production_go failAt rows db 0 0 = Except.ok (db2, sk) →
      import_production_data_tx failAt db rows = (db2, some sk) ∧
        (db2, sk) = import_production_data db rows) ∧
    import_production_data_tx (fun _ => false) db rows =
      ((import_production_data db rows).1, some (import_production_data db rows).2) := by
  refine ⟨?_, ?_, ?_⟩
  · intro h
    unfold import_production_data_tx run_in_session
    rw [h]
  · intro db2 sk h
    constructor
    · unfold import_production_data_tx run_in_session
      rw [h]
    · have := import_production_go_ok failAt rows db 0 0 db2 sk h
      unfold import_production_data
      rw [this]
  · unfold import_production_data_tx run_in_session import_production_data
    rw [import_production_go_nofail rows db 0 0]

theorem spec_C5_witness :
    import_production_data_tx (fun _ => true) emptyDB [prodRow] = (emptyDB, Option.none) ∧
    import_production_data_tx (fun _ => false) emptyDB [prodRow] =
      ((import_production_data emptyDB [prodRow]).1,
        some (import_production_data emptyDB [prodRow]).2) :=
  ⟨(spec_C5 (fun _ => true) emptyDB [prodRow]).1 (by rfl),
   (spec_C5 (fun _ => false) emptyDB [prodRow]).2.2⟩

/-! ## Inspection importer step and fold lemmas -/

theorem import_inspection_step_skip (acc : DB × Nat) (row : Row)
    (h : requiredInspection row = false) :
    import_inspection_step acc row = (acc.1, acc.2 + 1) := by
  have hc : (!(rowGet row "Lot_ID").truthy || !(rowGet row "Inspection_Date").truthy ||
      !(rowGet row "Production_Line").truthy) = true := by
    unfold requiredInspection at h
    rcases h1 : (rowGet row "Lot_ID").truthy <;>
      rcases h2 : (rowGet row "Inspection_Date").truthy <;>
        rcases h3 : (rowGet row "Production_Line").truthy <;>
          simp_all
  unfold import_inspection_step
  rw [if_pos hc]

theorem import_inspection_step_accept (acc : DB × Nat) (row : Row)
    (h : requiredInspection row = true) :
    (import_inspection_step acc row).2 = acc.2 ∧
    (import_inspection_step acc row).1.inspectionRecords.length =
      acc.1.inspectionRecords.length + 1 ∧
    (import_inspection_step acc row).1 = (import_inspection_step (acc.1, 0) row).1 := by
  have hc : (!(rowGet row "Lot_ID").truthy || !(rowGet row "Inspection_Date").truthy ||
      !(rowGet row "Production_Line").truthy) = false := by
    unfold requiredInspection at h
    rcases h1 : (rowGet row "Lot_ID").truthy <;>
      rcases h2 : (rowGet row "Inspection_Date").truthy <;>
        rcases h3 : (rowGet row "Production_Line").truthy <;>
          simp_all
  unfold import_inspection_step
  rw [if_neg (by simp [hc]), if_neg (by simp [hc])]
  refine ⟨rfl, ?_, rfl⟩
  have h1 := (get_or_create_lot_preserves acc.1 (rowGet row "Lot_ID").asStrOpt).2.2.2.1
  have h2 := (get_or_create_line_preserves
    (get_or_create_lot acc.1 (rowGet row "Lot_ID").asStrOpt).2
    (rowGet row "Production_Line").asStrOpt).2.2.2.1
  have h3 := (resolveInspectionDefect_preserves
    (get_or_create_line (get_or_create_lot acc.1 (rowGet row "Lot_ID").asStrOpt).2
      (rowGet row "Production_Line").asStrOpt).2 row).2.2.2.1
  simp [h1, h2, h3]

theorem import_inspection_fold_snd (rows : List Row) : ∀ (db : DB) (sk : Nat),
    (rows.foldl import_inspection_step (db, sk)).2 =
      sk + rows.countP (fun r => !(requiredInspection r)) := by
  induction rows with
  | nil => intro db sk; simp
  | cons row rest ih =>
    intro db sk
    rw [List.foldl_cons, List.countP_cons]
    rcases hreq : requiredInspection row
    · rw [import_inspection_step_skip (db, sk) row hreq]
      simp [ih db (sk + 1), hreq, Nat.add_assoc, Nat.add_comm 1]
    · obtain ⟨hsnd, _, hfst⟩ := import_inspection_step_accept (db, sk) row hreq
      have he : import_inspection_step (db, sk) row =
          ((import_inspection_step (db, 0) row).1, sk) := Prod.ext hfst hsnd
      rw [he]
      simp [ih _ sk, hreq]

theorem import_inspection_fold_len (rows : List Row) : ∀ (db : DB) (sk : Nat),
    (rows.foldl import_inspection_step (db, sk)).1.inspectionRecords.length =
      db.inspectionRecords.length + rows.countP requiredInspection := by
  induction rows with
  | nil => intro db sk; simp
  | cons row rest ih =>
    intro db sk
    rw [List.foldl_cons, List.countP_cons]
    rcases hreq : requiredInspection row
    · rw [import_inspection_step_skip (db, sk) row hreq]
      simp [ih db (sk + 1), hreq]
    · obtain ⟨hsnd, hlen, hfst⟩ := import_inspection_step_accept (db, sk) row hreq
      have he : import_inspection_step (db, sk) row =
          ((import_inspection_step (db, 0) row).1, sk) := Prod.ext hfst hsnd
      rw [he, ih _ sk]
      have hD : (import_inspection_step (db, 0) row).1.inspectionRecords.length =
          db.inspectionRecords.length + 1 :=
        (import_inspection_step_accept (db, 0) row hreq).2.1
      simp only [hreq, if_pos]
      omega

theorem import_inspection_fold_filter (rows : List Row) : ∀ (db : DB) (sk sk2 : Nat),
    ((rows.filter requiredInspection).foldl import_inspection_step (db, sk)).1 =
      (rows.foldl import_inspection_step (db, sk2)).1 := by
  induction rows with
  | nil => intro db sk sk2; rfl
  | cons row rest ih =>
    intro db sk sk2
    rcases hreq : requiredInspection row
    · rw [List.filter_cons_of_neg (by simp [hreq]), List.foldl_cons,
        import_inspection_step_skip (db, sk2) row hreq]
      exact ih db sk (sk2 + 1)
    · obtain ⟨hsnd, _, hfst⟩ := import_inspection_step_accept (db, sk) row hreq
      obtain ⟨hsnd2, _, hfst2⟩ := import_inspection_step_accept (db, sk2) row hreq
      have he : import_inspection_step (db, sk) row =
          ((import_inspection_step (db, 0) row).1, sk) := Prod.ext hfst hsnd
      have he2 : import_inspection_step (db, sk2) row =
          ((import_inspection_step (db, 0) row).1, sk2) := Prod.ext hfst2 hsnd2
      rw [List.filter_cons_of_pos (by simp [hreq]), List.foldl_cons, List.foldl_cons, he, he2]
      exact ih _ sk sk2

/-! ## Shipping importer step and fold lemmas -/

theorem import_shipping_step_skip (acc : DB × Nat) (row : Row)
    (h : requiredShipping row = false) :
    import_shipping_step acc row = (acc.1, acc.2 + 1) := by
  have hc : (!(rowGet row "Lot_ID").truthy || !(rowGet row "Ship_Date").truthy) = true := by
    unfold requiredShipping at h
    rcases h1 : (rowGet row "Lot_ID").truthy <;>
      rcases h2 : (rowGet row "Ship_Date").truthy <;>
        simp_all
  unfold import_shipping_step
  rw [if_pos hc]

theorem import_shipping_step_accept (acc : DB × Nat) (row : Row)
    (h : requiredShipping row = true) :
    (import_shipping_step acc row).2 = acc.2 ∧
    (import_shipping_step acc row).1.shippingRecords.length =
      acc.1.shippingRecords.length + 1 ∧
    (import_shipping_step acc row).1 = (import_shipping_step (acc.1, 0) row).1 := by
  have hc : (!(rowGet row "Lot_ID").truthy || !(rowGet row "Ship_Date").truthy) = false := by
    unfold requiredShipping at h
    rcases h1 : (rowGet row "Lot_ID").truthy <;>
      rcases h2 : (rowGet row "Ship_Date").truthy <;>
        simp_all
  unfold import_shipping_step
  rw [if_neg (by simp [hc]), if_neg (by simp [hc])]
  refine ⟨rfl, ?_, rfl⟩
  have h1 := (get_or_create_lot_preserves acc.1 (rowGet row "Lot_ID").asStrOpt).2.2.2.2
  simp [h1]

theorem import_shipping_fold_snd (rows : List Row) : ∀ (db : DB) (sk : Nat),
    (rows.foldl import_shipping_step (db, sk)).2 =
      sk + rows.countP (fun r => !(requiredShipping r)) := by
  induction rows with
  | nil => intro db sk; simp
  | cons row rest ih =>
    intro db sk
    rw [List.foldl_cons, List.countP_cons]
    rcases hreq : requiredShipping row
    · rw [import_shipping_step_skip (db, sk) row hreq]
      simp [ih db (sk + 1), hreq, Nat.add_assoc, Nat.add_comm 1]
    · obtain ⟨hsnd, _, hfst⟩ := import_shipping_step_accept (db, sk) row hreq
      have he : import_shipping_step (db, sk) row =
          ((import_shipping_step (db, 0) row).1, sk) := Prod.ext hfst hsnd
      rw [he]
      simp [ih _ sk, hreq]

theorem import_shipping_fold_len (rows : List Row) : ∀ (db : DB) (sk : Nat),
    (rows.foldl import_shipping_step (db, sk)).1.shippingRecords.length =
      db.shippingRecords.length + rows.countP requiredShipping := by
  induction rows with
  | nil => intro db sk; simp
  | cons row rest ih =>
    intro db sk
    rw [List.foldl_cons, List.countP_cons]
    rcases hreq : requiredShipping row
    · rw [import_shipping_step_skip (db, sk) row hreq]
      simp [ih db (sk + 1), hreq]
    · obtain ⟨hsnd, hlen, hfst⟩ := import_shipping_step_accept (db, sk) row hreq
      have he : import_shipping_step (db, sk) row =
          ((import_shipping_step (db, 0) row).1, sk) := Prod.ext hfst hsnd
      rw [he, ih _ sk]
      have hD : (import_shipping_step (db, 0) row).1.shippingRecords.length =
          db.shippingRecords.length + 1 :=
        (import_shipping_step_accept (db, 0) row hreq).2.1
      simp only [hreq, if_pos]
      omega

theorem import_shipping_fold_filter (rows : List Row) : ∀ (db : DB) (sk sk2 : Nat),
    ((rows.filter requiredShipping).foldl import_shipping_step (db, sk)).1 =
      (rows.foldl import_shipping_step (db, sk2)).1 := by
  induction rows with
  | nil => intro db sk sk2; rfl
  | cons row rest ih =>
    intro db sk sk2
    rcases hreq : requiredShipping row
    · rw [List.filter_cons_of_neg (by simp [hreq]), List.foldl_cons,
        import_shipping_step_skip (db, sk2) row hreq]
      exact ih db sk (sk2 + 1)
    · obtain ⟨hsnd, _, hfst⟩ := import_shipping_step_accept (db, sk) row hreq
      obtain ⟨hsnd2, _, hfst2⟩ := import_shipping_step_accept (db, sk2) row hreq
      have he : import_shipping_step (db, sk) row =
          ((import_shipping_step (db, 0) row).1, sk) := Prod.ext hfst hsnd
      have he2 : import_shipping_step (db, sk2) row =
          ((import_shipping_step (db, 0) row).1, sk2) := Prod.ext hfst2 hsnd2
      rw [List.filter_cons_of_pos (by simp [hreq]), List.foldl_cons, List.foldl_cons, he, he2]
      exact ih _ sk sk2

/-! ## Claim C6 -/

/-- C6: for each importer, a row missing a required field (production:
lot id, production date, line; inspection: lot id, inspection date,
line; shipping: lot id, ship date) is skipped and counted in the
reported tally, produces no fact record (the fact-table growth is
exactly the number of accepted rows), and the resulting store — fact
tables and dimension tables alike — is exactly the store obtained from
the accepted rows alone, so dimension entities are created or reused
only for accepted rows. -/
theorem spec_C6 (db : DB) (rows : List Row) :
    ((import_production_data db rows).2 =
        rows.countP (fun r => !(requiredProduction r)) ∧
      (import_production_data db rows).1.productionRecords.length =
        db.productionRecords.length + rows.countP requiredProduction ∧
      (import_production_data db rows).1 =
        (import_production_data db (rows.filter requiredProduction)).1) ∧
    ((import_inspection_data db rows).2 =
        rows.countP (fun r => !(requiredInspection r)) ∧
      (import_inspection_data db rows).1.inspectionRecords.length =
        db.inspectionRecords.length + rows.countP requiredInspection ∧
      (import_inspection_data db rows).1 =
        (import_inspection_data db (rows.filter requiredInspection)).1) ∧
    ((import_shipping_data db rows).2 =
        rows.countP (fun r => !(requiredShipping r)) ∧
      (import_shipping_data db rows).1.shippingRecords.length =
        db.shippingRecords.length + rows.countP requiredShipping ∧
      (import_shipping_data db rows).1 =
        (import_shipping_data db (rows.filter requiredShipping)).1) := by
  unfold import_production_data import_inspection_data import_shipping_data
  refine ⟨⟨?_, ?_, ?_⟩, ⟨?_, ?_, ?_⟩, ⟨?_, ?_, ?_⟩⟩
  · simpa using import_production_fold_snd rows db 0
  · exact import_production_fold_len rows db 0
  · exact (import_production_fold_filter rows db 0 0).symm
  · simpa using import_inspection_fold_snd rows db 0
  · exact import_inspection_fold_len rows db 0
  · exact (import_inspection_fold_filter rows db 0 0).symm
  · simpa using import_shipping_fold_snd rows db 0
  · exact import_shipping_fold_len rows db 0
  · exact (import_shipping_fold_filter rows db 0 0).symm

/-! ## Claim C3 -/

theorem summary_sorted (db : DB) (start stop : Option PyDate) (lf : Option String) :
    List.Sorted descByTotal (summary_defects_by_line db start stop lf) :=
  List.sorted_insertionSort descByTotal _

theorem summary_keys_nodup (db : DB) (start stop : Option PyDate) (lf : Option String) :
    ((summary_defects_by_line db start stop lf).map (fun p => p.1)).Nodup := by
  unfold summary_defects_by_line
  have hperm := (List.perm_insertionSort descByTotal
    (((summaryRows db start stop lf).map (fun t => t.1)).dedup.map
      (fun k => (k, summaryTotal (summaryRows db start stop lf) k)))).map (fun p => p.1)
  rw [hperm.nodup_iff, List.map_map]
  show (((summaryRows db start stop lf).map (fun t => t.1)).dedup.map (fun k => k)).Nodup
  rw [List.map_id']
  exact List.nodup_dedup _

theorem summary_mem (db : DB) (start stop : Option PyDate) (lf : Option String)
    (ln : String) (t : Int) :
    (ln, t) ∈ summary_defects_by_line db start stop lf ↔
      (ln ∈ (summaryRows db start stop lf).map (fun r => r.1) ∧
        t = summaryTotal (summaryRows db start stop lf) ln) := by
  unfold summary_defects_by_line
  rw [List.mem_insertionSort]
  constructor
  · intro h
    obtain ⟨k, hk, he⟩ := List.mem_map.mp h
    obtain ⟨he1, he2⟩ := Prod.mk.injEq .. ▸ he
    subst he1
    exact ⟨List.mem_dedup.mp hk, he2.symm⟩
  · rintro ⟨h1, rfl⟩
    exact List.mem_map_of_mem _ (List.mem_dedup.mpr h1)

/-- C3: the defect summary returns one `(line, total)` pair per line with
at least one inspection row matching the date range and line filter
(membership characterization plus distinctness of the line keys), the
total being the sum of `qty_defects` over those rows; the line filter is
the case-insensitive exact match `upper(stored) = upper(strip(filter))`;
the result is sorted descending by total (no tiebreak); and on the
seeded 14-day × 3-line dataset the 2023-01-01..07 query filtered to line
`"B"` returns exactly `[("B", 7)]` while the unfiltered query returns
the set containing `("A",7), ("B",7), ("C",7)`. -/
theorem spec_C3 :
    (∀ (db : DB) (start stop : Option PyDate) (lf : Option String),
      List.Sorted descByTotal (summary_defects_by_line db start stop lf)) ∧
    (∀ (db : DB) (start stop : Option PyDate) (lf : Option String),
      ((summary_defects_by_line db start stop lf).map (fun p => p.1)).Nodup) ∧
    (∀ (db : DB) (start stop : Option PyDate) (lf : Option String) (ln : String) (t : Int),
      (ln, t) ∈ summary_defects_by_line db start stop lf ↔
        (ln ∈ (summaryRows db start stop lf).map (fun r => r.1) ∧
          t = summaryTotal (summaryRows db start stop lf) ln)) ∧
    (∀ (db : DB) (start stop : Option PyDate) (lf : String),
      summaryRows db start stop (some lf) =
        ((summaryJoinedRows db).filter (fun t => inDateRange start stop t.2.1)).filter
          (fun t => pyUpper t.1 == pyUpper (pyStrip lf))) ∧
    summary_defects_by_line seededDB (some { year := 2023, month := 1, day := 1 })
      (some { year := 2023, month := 1, day := 7 }) (some "B") = [("B", 7)] ∧
    (summary_defects_by_line seededDB (some { year := 2023, month := 1, day := 1 })
      (some { year := 2023, month := 1, day := 7 }) Option.none).toFinset =
      ([("A", 7), ("B", 7), ("C", 7)] : List (String × Int)).toFinset := by
  refine ⟨summary_sorted, summary_keys_nodup, summary_mem, fun db start stop lf => rfl,
    by decide, by decide⟩

/-! ## Claim C4 -/

theorem trend_sorted (db : DB) (start stop : Option PyDate) :
    List.Sorted ascTriple (trending_defects db start stop) := by
  unfold trending_defects
  exact List.Pairwise.map _ (fun a b h => h) (List.sorted_insertionSort ascKey _)

theorem trend_keys_nodup (db : DB) (start stop : Option PyDate) :
    ((trending_defects db start stop).map (fun p => (p.1, p.2.1))).Nodup := by
  unfold trending_defects
  rw [List.map_map]
  show ((List.insertionSort ascKey
    (((trendLabeledRows db start stop).map (fun t => t.1)).dedup)).map (fun k => k)).Nodup
  rw [List.map_id']
  exact ((List.perm_insertionSort ascKey _).nodup_iff).mpr
    (List.nodup_dedup ((trendLabeledRows db start stop).map (fun t => t.1)))

theorem trend_mem (db : DB) (start stop : Option PyDate) (w c : String) (t : Int) :
    (w, c, t) ∈ trending_defects db start stop ↔
      ((w, c) ∈ (trendLabeledRows db start stop).map (fun r => r.1) ∧
        t = trendTotal (trendLabeledRows db start stop) (w, c)) := by
  unfold trending_defects
  constructor
  · intro h
    obtain ⟨k, hk, he⟩ := List.mem_map.mp h
    rw [List.mem_insertionSort] at hk
    have hk1 : k.1 = w := congrArg (fun p => p.1) he
    have hk2 : k.2 = c := congrArg (fun p => p.2.1) he
    have ht : trendTotal (trendLabeledRows db start stop) k = t :=
      congrArg (fun p => p.2.2) he
    have hkwc : k = (w, c) := Prod.ext hk1 hk2
    subst hkwc
    exact ⟨List.mem_dedup.mp hk, ht.symm⟩
  · rintro ⟨h1, rfl⟩
    exact List.mem_map_of_mem _ ((List.mem_insertionSort ascKey).mpr (List.mem_dedup.mpr h1))

theorem trendLabeled_label (db : DB) (start stop : Option PyDate) :
    ∀ x ∈ trendLabeledRows db start stop, ∃ d : PyDate, x.1.1 = isoWeekLabel d := by
  intro x hx
  unfold trendLabeledRows at hx
  obtain ⟨t0, ht0, hg⟩ := List.mem_filterMap.mp hx
  rcases hd : t0.1 with _ | d
  · rw [hd] at hg
    exact Option.noConfusion hg
  · rw [hd] at hg
    obtain rfl := Option.some.injEq .. ▸ hg
    exact ⟨d, rfl⟩

theorem filterMap_filter_nil {β γ : Type} (q : β → Bool) (g : β → Option γ) (m : List β)
    (h : ∀ x ∈ m, g x = Option.none) : (m.filter q).filterMap g = [] :=
  List.filterMap_eq_nil_iff.mpr (fun x hx => h x (List.mem_of_mem_filter hx))

theorem filterMap_filter_flatMap_filter {α β γ : Type} (f : α → List β) (q : β → Bool)
    (g : β → Option γ) (p : α → Bool) (l : List α)
    (h : ∀ x ∈ l, p x = false → ((f x).filter q).filterMap g = []) :
    (((l.filter p).flatMap f).filter q).filterMap g =
      ((l.flatMap f).filter q).filterMap g := by
  induction l with
  | nil => rfl
  | cons a as ih =>
    have ih' := ih (fun x hx hpx => h x (List.mem_cons_of_mem a hx) hpx)
    rcases hp : p a
    · rw [List.filter_cons_of_neg (by simp [hp])]
      conv_rhs => rw [List.flatMap_cons, List.filter_append, List.filterMap_append]
      rw [h a (List.mem_cons_self a as) hp, List.nil_append]
      exact ih'
    · rw [List.filter_cons_of_pos (by simp [hp])]
      conv_lhs => rw [List.flatMap_cons, List.filter_append, List.filterMap_append]
      conv_rhs => rw [List.flatMap_cons, List.filter_append, List.filterMap_append]
      rw [ih']

theorem trendLabeledRows_drop_null_dates (db : DB) (start stop : Option PyDate) :
    trendLabeledRows
        { db with inspectionRecords :=
            db.inspectionRecords.filter (fun r => r.inspection_date.isSome) }
        start stop =
      trendLabeledRows db start stop := by
  unfold trendLabeledRows trendJoinedRows
  exact filterMap_filter_flatMap_filter _ _ _ _ db.inspectionRecords
    (by
      intro r hr hp
      apply filterMap_filter_nil
      intro x hx
      rcases hdid : r.defect_id with _ | did
      · rw [hdid] at hx
        exact absurd hx (List.not_mem_nil x)
      · rw [hdid] at hx
        obtain ⟨d, hd, he⟩ := List.mem_map.mp hx
        have hdate : r.inspection_date = Option.none := by
          rcases hdate : r.inspection_date with _ | dv
          · rfl
          · rw [hdate] at hp
            exact absurd hp (by simp)
        have hx1 : x.1 = Option.none := by
          rw [← he, hdate]
        simp only [hx1])

/-- C4: the weekly trend returns its triples sorted ascending
lexicographically by `(week label, defect code)` with one triple per
distinct key (key distinctness plus membership characterization: a
triple is present iff its key occurs among the in-range joined rows, its
total being the aggregated quantity for that key); every returned week
label is the ISO label `f"{year}-W{week:02}"` of some date, computed by
the embedded CPython `isocalendar`; rows with a null inspection date
never contribute; and the label of 2023-01-01 is `"2022-W52"`. -/
theorem spec_C4 :
    (∀ (db : DB) (start stop : Option PyDate),
      List.Sorted ascTriple (trending_defects db start stop)) ∧
    (∀ (db : DB) (start stop : Option PyDate),
      ((trending_defects db start stop).map (fun p => (p.1, p.2.1))).Nodup) ∧
    (∀ (db : DB) (start stop : Option PyDate) (w c : String) (t : Int),
      (w, c, t) ∈ trending_defects db start stop ↔
        ((w, c) ∈ (trendLabeledRows db start stop).map (fun r => r.1) ∧
          t = trendTotal (trendLabeledRows db start stop) (w, c))) ∧
    (∀ (db : DB) (start stop : Option PyDate) (p : String × String × Int),
      p ∈ trending_defects db start stop → ∃ d : PyDate, p.1 = isoWeekLabel d) ∧
    (∀ (db : DB) (start stop : Option PyDate),
      trending_defects
          { db with inspectionRecords :=
              db.inspectionRecords.filter (fun r => r.inspection_date.isSome) }
          start stop =
        trending_defects db start stop) ∧
    isoWeekLabel { year := 2023, month := 1, day := 1 } = "2022-W52" := by
  refine ⟨trend_sorted, trend_keys_nodup, trend_mem, ?_, ?_, by decide⟩
  · intro db start stop p hp
    obtain ⟨w, c, t⟩ := p
    obtain ⟨hk, _⟩ := (trend_mem db start stop w c t).mp hp
    obtain ⟨x, hx, he⟩ := List.mem_map.mp hk
    obtain ⟨d, hd⟩ := trendLabeled_label db start stop x hx
    exact ⟨d, by rw [show w = x.1.1 from (congrArg (fun q => q.1) he).symm, hd]⟩
  · intro db start stop
    unfold trending_defects
    rw [trendLabeledRows_drop_null_dates]

theorem spec_C4_witness :
    ∃ d : PyDate, ("2022-W52", "D1", (3 : Int)).1 = isoWeekLabel d :=
  spec_C4.2.2.2.1 seededDB Option.none Option.none ("2022-W52", "D1", (3 : Int)) (by decide)

/-! ## Claim C10 -/

theorem flatMap_filter_eq {α β : Type} (f : α → List β) (p : α → Bool) (l : List α)
    (h : ∀ x ∈ l, p x = false → f x = []) : (l.filter p).flatMap f = l.flatMap f := by
  induction l with
  | nil => rfl
  | cons a as ih =>
    have ih' := ih (fun x hx => h x (List.mem_cons_of_mem a hx))
    rcases hp : p a
    · rw [List.filter_cons_of_neg (by simp [hp])]
      conv_rhs => rw [List.flatMap_cons]
      rw [h a (List.mem_cons_self a as) hp, List.nil_append]
      exact ih'
    · rw [List.filter_cons_of_pos (by simp [hp]), List.flatMap_cons, List.flatMap_cons, ih']

theorem trendJoinedRows_drop_no_defect (db : DB) :
    trendJoinedRows
        { db with inspectionRecords :=
            db.inspectionRecords.filter (fun r => r.defect_id.isSome) } =
      trendJoinedRows db := by
  unfold trendJoinedRows
  exact flatMap_filter_eq _ _ db.inspectionRecords
    (by
      intro r hr hp
      rcases hdid : r.defect_id with _ | did
      · simp only [hdid]
      · rw [hdid] at hp
        exact absurd hp (by simp))

theorem resolveInspectionDefect_unset (row : Row) (n : Int)
    (hqd : rowGetD row "Qty_Defects" (Value.int 0) = Value.int n) (hn : 0 < n)
    (hcode : (rowGet row "Defect_Code").truthy = false) :
    ∀ db2 : DB, resolveInspectionDefect db2 row = (Option.none, db2) := by
  intro db2
  unfold resolveInspectionDefect
  dsimp only
  have h1 : ((Value.int n).truthy && (Value.int n).gtZeroB) = true := by
    simp only [Value.truthy, Value.gtZeroB, Bool.and_eq_true, bne_iff_ne, ne_eq,
      decide_eq_true_eq]
    omega
  rw [hqd, if_pos h1, if_neg (by simp [hcode])]

/-- C10: an inspection record with an unset defect reference contributes
to no triple of the weekly trend (removing all such records leaves every
query result unchanged), and the importer leaves the defect reference
unset — and creates no Defect entity — for every accepted inspection row
that has a positive defect quantity but no (truthy) defect code, so such
quantities never appear in the weekly trend. -/
theorem spec_C10 :
    (∀ (db : DB) (start stop : Option PyDate),
      trending_defects
          { db with inspectionRecords :=
              db.inspectionRecords.filter (fun r => r.defect_id.isSome) }
          start stop =
        trending_defects db start stop) ∧
    (∀ (db : DB) (row : Row) (n : Int),
      requiredInspection row = true →
      rowGetD row "Qty_Defects" (Value.int 0) = Value.int n →
      0 < n →
      (rowGet row "Defect_Code").truthy = false →
      ∃ r0 : InspectionRecord,
        (import_inspection_data db [row]).1.inspectionRecords =
          db.inspectionRecords ++ [r0] ∧
        r0.defect_id = Option.none ∧
        (import_inspection_data db [row]).1.defects = db.defects) := by
  constructor
  · intro db start stop
    unfold trending_defects trendLabeledRows
    rw [trendJoinedRows_drop_no_defect]
  · intro db row n hreq hqd hn hcode
    have hc : (!(rowGet row "Lot_ID").truthy || !(rowGet row "Inspection_Date").truthy ||
        !(rowGet row "Production_Line").truthy) = false := by
      unfold requiredInspection at hreq
      rcases h1 : (rowGet row "Lot_ID").truthy <;>
        rcases h2 : (rowGet row "Inspection_Date").truthy <;>
          rcases h3 : (rowGet row "Production_Line").truthy <;>
            simp_all
    show ∃ r0, (import_inspection_step (db, 0) row).1.inspectionRecords =
        db.inspectionRecords ++ [r0] ∧ r0.defect_id = Option.none ∧
        (import_inspection_step (db, 0) row).1.defects = db.defects
    unfold import_inspection_step
    rw [if_neg (by simp [hc])]
    dsimp only
    rw [resolveInspectionDefect_unset row n hqd hn hcode]
    have hlotp := get_or_create_lot_preserves db (rowGet row "Lot_ID").asStrOpt
    have hlinep := get_or_create_line_preserves
      (get_or_create_lot db (rowGet row "Lot_ID").asStrOpt).2
      (rowGet row "Production_Line").asStrOpt
    refine ⟨mkInspectionRecord row
        (get_or_create_lot db (rowGet row "Lot_ID").asStrOpt).1
        (get_or_create_line (get_or_create_lot db (rowGet row "Lot_ID").asStrOpt).2
          (rowGet row "Production_Line").asStrOpt).1
        Option.none, ?_, rfl, ?_⟩
    · simp [hlinep.2.2.2.1, hlotp.2.2.2.1]
    · simp [hlinep.2.1, hlotp.2.1]

theorem spec_C10_witness :
    ∃ r0 : InspectionRecord,
      (import_inspection_data emptyDB
          [[("Lot_ID", Value.str "L1"),
            ("Inspection_Date", Value.date { year := 2023, month := 1, day := 2 }),
            ("Production_Line", Value.str "A"),
            ("Qty_Defects", Value.int 4)]]).1.inspectionRecords =
        emptyDB.inspectionRecords ++ [r0] ∧
      r0.defect_id = Option.none ∧
      (import_inspection_data emptyDB
          [[("Lot_ID", Value.str "L1"),
            ("Inspection_Date", Value.date { year := 2023, month := 1, day := 2 }),
            ("Production_Line", Value.str "A"),
            ("Qty_Defects", Value.int 4)]]).1.defects = emptyDB.defects :=
  spec_C10.2 emptyDB
    [("Lot_ID", Value.str "L1"),
     ("Inspection_Date", Value.date { year := 2023, month := 1, day := 2 }),
     ("Production_Line", Value.str "A"),
     ("Qty_Defects", Value.int 4)] 4 (by decide) (by decide) (by decide) (by decide)

/-! ## Claim C9 -/

/-- C9 counterexample: on the seeded dataset the weekly trend does list
the weeks `"2022-W52"` and `"2023-W01"`, but `"2022-W52"` carries a
total of 3 for defect code `"D1"` (only 2023-01-01 falls in that ISO
week: 3 lines × 1 defect) and no triple of either week carries 21 per
defect code, contradicting the claimed totals. -/
theorem spec_C9_counterexample :
    "2022-W52" ∈ (trending_defects seededDB Option.none Option.none).map (fun p => p.1) ∧
    "2023-W01" ∈ (trending_defects seededDB Option.none Option.none).map (fun p => p.1) ∧
    ("2022-W52", "D1", (3 : Int)) ∈ trending_defects seededDB Option.none Option.none ∧
    ("2022-W52", "D1", (21 : Int)) ∉ trending_defects seededDB Option.none Option.none ∧
    ("2022-W52", "D2", (21 : Int)) ∉ trending_defects seededDB Option.none Option.none ∧
    ("2023-W01", "D1", (21 : Int)) ∉ trending_defects seededDB Option.none Option.none := by
  have h : trending_defects seededDB Option.none Option.none =
      [("2022-W52", "D1", 3), ("2023-W01", "D1", 9), ("2023-W01", "D2", 12),
       ("2023-W02", "D1", 9), ("2023-W02", "D2", 9)] := by decide
  rw [h]
  refine ⟨by decide, by decide, by decide, by decide, by decide, by decide⟩

/-- C9 (amended): after importing the seeded 14-day × 3-line inspection
rows, the weekly trend's labels include `"2022-W52"` and `"2023-W01"`
(the ISO calendar crosses the Gregorian year boundary), but the totals
are 3 for `("2022-W52", "D1")`, 9 for `("2023-W01", "D1")`, 12 for
`("2023-W01", "D2")` and 9 each in week `"2023-W02"` — not 21 per defect
code (each ISO week holds at most 21 seeded rows across both codes). -/
theorem spec_C9_amended :
    trending_defects seededDB Option.none Option.none =
      [("2022-W52", "D1", 3), ("2023-W01", "D1", 9), ("2023-W01", "D2", 12),
       ("2023-W02", "D1", 9), ("2023-W02", "D2", 9)] ∧
    "2022-W52" ∈ (trending_defects seededDB Option.none Option.none).map (fun p => p.1) ∧
    "2023-W01" ∈ (trending_defects seededDB Option.none Option.none).map (fun p => p.1) := by
  have h : trending_defects seededDB Option.none Option.none =
      [("2022-W52", "D1", 3), ("2023-W01", "D1", 9), ("2023-W01", "D2", 12),
       ("2023-W02", "D1", 9), ("2023-W02", "D2", 9)] := by decide
  rw [h]
  exact ⟨rfl, by decide, by decide⟩
